import Mathlib

/-!
Verification of the baostock-wrapper repository's data-source layer.

This file gives a shallow embedding, in Lean 4, of the parts of the
repository that the checked claims speak about:

* `src/datasource/base_datasource.py` (DataSourceType, the adapter base),
* `src/datasource/datasource_factory.py` (DataSourceFactory),
* `src/datasource/datasource_manager.py` (DataSourceManager),
* `src/core/connection.py` (BaoStockConnection),
* `src/core/base_query.py` (BaseQuery._result_to_dataframe, batch_query),
* `src/queries/cashflow_query.py` (CashFlowQuery.query_history),
* the `normalize_code` methods of the three adapters.

Python strings are modeled as lists of code points (`PyStr`), with ASCII
semantics for `lower`/`upper`/`strip`; `str.replace(pat, '')` is modeled
by `py_replace`, which removes non-overlapping occurrences left to right
exactly as CPython does.  DataFrames are modeled as a column list, a row
list and an integer index.  Effects of the Python code (vendor SDK calls,
exceptions, object identity, the manager's mutable cache) are made
explicit: vendor behaviour is an environment parameter, exceptions are
`Except`, and stateful methods return the updated state.
-/

/-! ## Python string model -/

/-- A Python string, as its list of character code points. -/
abbrev PyStr := List Nat

/-- Embed a Lean string literal as a `PyStr`. -/
def pystr (s : String) : PyStr := s.data.map Char.toNat

/-- Python `str.lower`, restricted to ASCII (all strings handled by the
repository's code paths under scrutiny are ASCII). -/
def lowerNat (n : Nat) : Nat := if 65 ≤ n ∧ n ≤ 90 then n + 32 else n

/-- Python `str.upper`, restricted to ASCII. -/
def upperNat (n : Nat) : Nat := if 97 ≤ n ∧ n ≤ 122 then n - 32 else n

def pyLower (s : PyStr) : PyStr := s.map lowerNat

def pyUpper (s : PyStr) : PyStr := s.map upperNat

/-- ASCII whitespace, as stripped by Python `str.strip()`. -/
def isSpaceNat (n : Nat) : Bool := n == 32 || (9 ≤ n && n ≤ 13)

/-- Python `str.strip()`: remove leading and trailing whitespace. -/
def pyStrip (s : PyStr) : PyStr :=
  ((s.dropWhile isSpaceNat).reverse.dropWhile isSpaceNat).reverse

/-- Worker for `py_replace`.  Removes non-overlapping occurrences of the
pattern `p :: ps` from the string, scanning left to right and resuming
after each removed occurrence (CPython `str.replace` semantics); the
fuel argument only forces termination and is always at least the length
of the string. -/
def pyRemoveAux (p : Nat) (ps : List Nat) : Nat → PyStr → PyStr
  | 0, s => s
  | _ + 1, [] => []
  | fuel + 1, c :: rest =>
    if (p :: ps).isPrefixOf (c :: rest) then
      pyRemoveAux p ps fuel (rest.drop ps.length)
    else
      c :: pyRemoveAux p ps fuel rest

/-- Python `s.replace(pat, '')` for a non-empty pattern (the only form the
repository uses); with an empty pattern it returns `s` unchanged. -/
def py_replace (s : PyStr) (pat : PyStr) : PyStr :=
  match pat with
  | [] => s
  | p :: ps => pyRemoveAux p ps s.length s

/-! ## The three adapters' `normalize_code`

Each is translated line by line from the corresponding Python method. -/

/-- Model of `BaoStockDataSource.normalize_code`
(src/datasource/baostock_datasource.py, lines 203-224). -/
def BaoStockDataSource.normalize_code (code : PyStr) : PyStr :=
  let code := pyLower (pyStrip code)
  if (pystr "sh.").isPrefixOf code || (pystr "sz.").isPrefixOf code then code
  else
    let code := py_replace (py_replace code (pystr ".sh")) (pystr ".sz")
    if (pystr "6").isPrefixOf code then pystr "sh." ++ code
    else if (pystr "0").isPrefixOf code || (pystr "3").isPrefixOf code then
      pystr "sz." ++ code
    else pystr "sh." ++ code

/-- Model of `TushareDataSource.normalize_code`
(src/datasource/tushare_datasource.py, lines 259-280). -/
def TushareDataSource.normalize_code (code : PyStr) : PyStr :=
  let code := pyUpper (pyStrip code)
  if (pystr ".SH").isSuffixOf code || (pystr ".SZ").isSuffixOf code then code
  else
    let code :=
      py_replace (py_replace (py_replace (py_replace code
        (pystr "SH.")) (pystr "SZ.")) (pystr "sh.")) (pystr "sz.")
    if (pystr "6").isPrefixOf code then code ++ pystr ".SH"
    else if (pystr "0").isPrefixOf code || (pystr "3").isPrefixOf code then
      code ++ pystr ".SZ"
    else code ++ pystr ".SH"

/-- Model of `AkShareDataSource._extract_code`
(src/datasource/akshare_datasource.py, lines 214-232). -/
def AkShareDataSource.extract_code (code : PyStr) : PyStr :=
  let code := pyStrip code
  let code := py_replace (py_replace code (pystr "sh.")) (pystr "sz.")
  let code := py_replace (py_replace code (pystr "SH.")) (pystr "SZ.")
  let code := py_replace (py_replace code (pystr ".SH")) (pystr ".SZ")
  py_replace (py_replace code (pystr ".sh")) (pystr ".sz")

/-- Model of `AkShareDataSource.normalize_code`
(src/datasource/akshare_datasource.py, lines 207-212). -/
def AkShareDataSource.normalize_code (code : PyStr) : PyStr :=
  AkShareDataSource.extract_code code

/-! ## DataFrames (the fragment of pandas the claims need) -/

/-- A pandas DataFrame: column names, the integer index, and the rows
(each row a list of cell strings). -/
structure DataFrame where
  cols : List String
  idx : List Nat
  rows : List (List String)
deriving DecidableEq

/-- Model of `pd.DataFrame(data, columns=cols)`: default integer index `0..n-1`. -/
def DataFrame.mk' (cols : List String) (rows : List (List String)) : DataFrame :=
  { cols := cols, idx := List.range rows.length, rows := rows }

/-- Model of `pd.DataFrame()`: the empty frame with no columns. -/
def DataFrame.emptyFrame : DataFrame := { cols := [], idx := [], rows := [] }

/-- Model of `df.empty`: true iff some axis has length zero. -/
def DataFrame.isEmpty (df : DataFrame) : Bool :=
  df.rows.isEmpty || df.cols.isEmpty

/-- Column union in first-occurrence order, as `pd.concat` computes the
result columns when the inputs' columns differ. -/
def unionCols (ls : List (List String)) : List String :=
  (ls.flatMap id).foldl (fun acc c => if c ∈ acc then acc else acc ++ [c]) []

/-- Model of `pd.concat(dfs, ignore_index=True)`: rows concatenated in order, a
fresh integer index.  (Cell realignment for frames with differing columns
is not modeled; the claims only speak about row order and the index.) -/
def pdConcatIgnoreIndex (dfs : List DataFrame) : DataFrame :=
  let rows := dfs.flatMap DataFrame.rows
  { cols := unionCols (dfs.map DataFrame.cols)
    idx := List.range rows.length
    rows := rows }

/-! ## Python dicts as association lists

A CPython dict keeps insertion order; assigning to an existing key
overwrites in place, assigning to a new key appends. -/

/-- Dict assignment `d[k] = v`. -/
def dictInsert {ι α : Type} [DecidableEq ι] :
    List (ι × α) → ι → α → List (ι × α)
  | [], k, v => [(k, v)]
  | (k', v') :: rest, k, v =>
    if k' = k then (k, v) :: rest else (k', v') :: dictInsert rest k v

/-- Dict lookup `d.get(k)`. -/
def dlookup {ι α : Type} [DecidableEq ι] : List (ι × α) → ι → Option α
  | [], _ => none
  | (k', v) :: rest, k => if k' = k then some v else dlookup rest k

/-! ## DataSourceType and vendor environment -/

/-- The `DataSourceType` enum (src/datasource/base_datasource.py,
lines 15-20), in declaration order. -/
inductive DataSourceType where
  | baostock
  | tushare
  | akshare
  | wind
deriving DecidableEq

/-- The members of `DataSourceType`, in enum iteration order. -/
def allSourceTypes : List DataSourceType :=
  [.baostock, .tushare, .akshare, .wind]

/-- The `value` string of each enum member. -/
def typeValue : DataSourceType → PyStr
  | .baostock => pystr "baostock"
  | .tushare => pystr "tushare"
  | .akshare => pystr "akshare"
  | .wind => pystr "wind"

/-- An adapter instance: a Python object with an identity, its
`source_type` and its `_is_connected` flag. -/
structure DataSource where
  id : Nat
  source_type : DataSourceType
  is_connected : Bool
deriving DecidableEq

/-- What a single datasource's query method does when called
(the query method name is fixed for the whole `query_with_fallback`
call, so it is left implicit). -/
inductive QueryOutcome where
  | raises
  | returnsNone
  | returns (df : DataFrame)
deriving DecidableEq

/-- The environment the datasource layer runs in: which optional adapter
modules imported successfully (factory registration), which vendor SDKs
are importable (adapter constructors raise ImportError otherwise),
whether `connect` succeeds per vendor, and how each datasource answers
the queried method (`hasattr` check and call outcome). -/
structure Env where
  tushare_registered : Bool
  akshare_registered : Bool
  tushare_sdk : Bool
  akshare_sdk : Bool
  connect_ok : DataSourceType → Bool
  has_method : DataSourceType → Bool
  query_result : DataSourceType → QueryOutcome

/-- Whether `DataSourceFactory._datasource_classes` contains the type
(src/datasource/datasource_factory.py, lines 33-43): BaoStock is always
registered, Tushare/AkShare only when their adapter modules imported,
and no class is ever registered for WIND. -/
def registered (e : Env) : DataSourceType → Bool
  | .baostock => true
  | .tushare => e.tushare_registered
  | .akshare => e.akshare_registered
  | .wind => false

/-- Whether the adapter class constructor raises ImportError
(tushare_datasource.py lines 32-33, akshare_datasource.py lines 29-30:
raised when the vendor SDK itself failed to import). -/
def ctor_raises (e : Env) : DataSourceType → Bool
  | .tushare => !e.tushare_sdk
  | .akshare => !e.akshare_sdk
  | _ => false

/-- Model of `BaseDataSource.connect` as the adapters implement it: on success the
`_is_connected` flag is set; on failure the instance is unchanged (the
boolean return value is ignored by every caller the claims concern). -/
def BaseDataSource.connect (e : Env) (ds : DataSource) : DataSource :=
  if ds.is_connected then ds
  else if e.connect_ok ds.source_type then { ds with is_connected := true }
  else ds

/-! ## DataSourceFactory -/

/-- The exceptions `DataSourceFactory.create`/`create_from_string` can
raise. -/
inductive FactoryError where
  | valueError
  | importError
deriving DecidableEq

/-- Model of `DataSourceFactory.create`
(src/datasource/datasource_factory.py, lines 45-93).  `fresh` is the
identity of the newly constructed instance. -/
def DataSourceFactory.create (e : Env) (source_type : DataSourceType)
    (auto_connect : Bool) (fresh : Nat) : Except FactoryError DataSource :=
  if registered e source_type = false then .error .valueError
  else if ctor_raises e source_type then .error .importError
  else
    let ds : DataSource :=
      { id := fresh, source_type := source_type, is_connected := false }
    .ok (if auto_connect then BaseDataSource.connect e ds else ds)

/-- Model of `DataSourceFactory.create_from_string`
(src/datasource/datasource_factory.py, lines 95-128): lower-case and
strip the name, scan the enum members in order for a matching value and
delegate to `create`; raise ValueError when no member matches. -/
def DataSourceFactory.create_from_string (e : Env) (source_name : PyStr)
    (auto_connect : Bool) (fresh : Nat) : Except FactoryError DataSource :=
  let n := pyStrip (pyLower source_name)
  match allSourceTypes.find? (fun t => typeValue t == n) with
  | some t => DataSourceFactory.create e t auto_connect fresh
  | none => .error .valueError

/-! ## DataSourceManager -/

/-- The mutable state of a `DataSourceManager`
(src/datasource/datasource_manager.py, lines 33-36): the default source
type, the ordered fallback list, and the `self.datasources` cache dict.
`next_id` is the identity the next constructed instance receives. -/
structure Manager where
  default_source_type : DataSourceType
  fallback_sources : List DataSourceType
  datasources : List (DataSourceType × DataSource)
  next_id : Nat
deriving DecidableEq

/-- Model of `DataSourceManager.get_datasource`
(src/datasource/datasource_manager.py, lines 63-100): answer from the
cache when possible (reconnecting a disconnected cached instance when
`auto_connect`), otherwise construct through the factory, cache and
return the new instance; any exception yields `None`. -/
def DataSourceManager.get_datasource (e : Env) (m : Manager)
    (source_type : Option DataSourceType) (auto_connect : Bool) :
    Option DataSource × Manager :=
  let t := source_type.getD m.default_source_type
  match dlookup m.datasources t with
  | some ds =>
    let ds := if auto_connect && !ds.is_connected then BaseDataSource.connect e ds else ds
    (some ds, { m with datasources := dictInsert m.datasources t ds })
  | none =>
    match DataSourceFactory.create e t auto_connect m.next_id with
    | .ok ds =>
      (some ds,
       { m with datasources := dictInsert m.datasources t ds
                next_id := m.next_id + 1 })
    | .error _ => (none, m)

/-- The loop body of `DataSourceManager.query_with_fallback`
(src/datasource/datasource_manager.py, lines 130-161), over the list of
sources still to try. -/
def DataSourceManager.query_with_fallback_go (e : Env) :
    List DataSourceType → Manager → Option DataFrame × Manager
  | [], m => (none, m)
  | s :: rest, m =>
    match DataSourceManager.get_datasource e m (some s) true with
    | (none, m') => DataSourceManager.query_with_fallback_go e rest m'
    | (some _, m') =>
      if e.has_method s = false then
        DataSourceManager.query_with_fallback_go e rest m'
      else
        match e.query_result s with
        | .returns result =>
          if result.isEmpty = false then (some result, m') else (some result, m')
        | .returnsNone => DataSourceManager.query_with_fallback_go e rest m'
        | .raises => DataSourceManager.query_with_fallback_go e rest m'

/-- Model of `DataSourceManager.query_with_fallback`
(src/datasource/datasource_manager.py, lines 102-161): with an explicit
`source_type` only that source is tried, otherwise the default source
followed by the configured fallbacks. -/
def DataSourceManager.query_with_fallback (e : Env) (m : Manager)
    (source_type : Option DataSourceType) : Option DataFrame × Manager :=
  let sources_to_try :=
    match source_type with
    | some t => [t]
    | none => m.default_source_type :: m.fallback_sources
  DataSourceManager.query_with_fallback_go e sources_to_try m

/-- Model of `DataSourceFactory.is_available`
(src/datasource/datasource_factory.py, lines 140-151): whether the type
has a registered class. -/
def DataSourceFactory.is_available (e : Env) (t : DataSourceType) : Bool :=
  registered e t

/-- The `DataSourceType(name)` enum constructor: the member whose value
equals the name exactly, if any (otherwise Python raises ValueError). -/
def DataSourceType.ofValue? (name : PyStr) : Option DataSourceType :=
  allSourceTypes.find? (fun t => typeValue t == name)

/-- Model of `DataSourceManager._parse_config`
(src/datasource/datasource_manager.py, lines 41-61): the default source
named by the config (falling back to BaoStock when missing or invalid),
and the configured fallback names that name a valid, available source
type, in configured order. -/
def DataSourceManager.parse_config (e : Env) (default_source : Option PyStr)
    (fallback_names : List PyStr) : DataSourceType × List DataSourceType :=
  let dname := default_source.getD (pystr "baostock")
  let d := (DataSourceType.ofValue? dname).getD DataSourceType.baostock
  let fbs := fallback_names.filterMap fun n =>
    match DataSourceType.ofValue? n with
    | some t => if DataSourceFactory.is_available e t then some t else none
    | none => none
  (d, fbs)

/-- A `DataSourceManager` freshly built from a config
(src/datasource/datasource_manager.py, lines 18-39): parsed default and
fallbacks, empty cache. -/
def DataSourceManager.from_config (e : Env) (default_source : Option PyStr)
    (fallback_names : List PyStr) : Manager :=
  { default_source_type :=
      (DataSourceManager.parse_config e default_source fallback_names).1
    fallback_sources :=
      (DataSourceManager.parse_config e default_source fallback_names).2
    datasources := []
    next_id := 0 }

/-- Whether `get_datasource` can produce an instance for `t` given the
manager state `m`: either one is cached, or the factory can construct
one. -/
def source_available (e : Env) (m : Manager) (t : DataSourceType) : Bool :=
  (dlookup m.datasources t).isSome || (registered e t && !ctor_raises e t)

/-- The net outcome of attempting one source inside
`query_with_fallback`: the DataFrame it returns, or `none` when the
source fails (unavailable, method missing, query raises, or query
returns `None`). -/
def attempt_result (e : Env) (m : Manager) (t : DataSourceType) :
    Option DataFrame :=
  if source_available e m t && e.has_method t then
    match e.query_result t with
    | .returns df => some df
    | _ => none
  else none

/-- The first successful attempt over a list of sources, all judged
against one manager state. -/
def first_attempt (e : Env) (m : Manager) : List DataSourceType → Option DataFrame
  | [] => none
  | s :: rest =>
    match attempt_result e m s with
    | some df => some df
    | none => first_attempt e m rest

/-! ## BaoStockConnection (src/core/connection.py)

The singleton and the login/logout toggle.  Python object semantics are
made explicit: the class attribute `_instance` is `singleton`, objects
live in a store keyed by identity, and the instance attribute
`_is_logged_in` (written by `login`/`logout`, falling back to the
class-attribute default `False` when never written) is the stored
boolean.  The vendor's `bs.login()`/`bs.logout()` behaviour is an input
of each call. -/

/-- What one `bs.login()` / `bs.logout()` call does: raise, or return a
result object with the given `error_code`. -/
inductive VendorResult where
  | raises
  | resp (error_code : String)
deriving DecidableEq

/-- The global state behind `BaoStockConnection`. -/
structure ConnWorld where
  singleton : Option Nat
  next_obj : Nat
  objs : List (Nat × Bool)
deriving DecidableEq

/-- The state before any `BaoStockConnection()` ever ran. -/
def conn_init : ConnWorld := { singleton := none, next_obj := 0, objs := [] }

/-- Model of `BaoStockConnection.__new__` (src/core/connection.py, lines 18-21):
return the stored instance, creating it first when there is none. -/
def BaoStockConnection.new (w : ConnWorld) : Nat × ConnWorld :=
  match w.singleton with
  | some i => (i, w)
  | none =>
    (w.next_obj,
     { w with singleton := some w.next_obj, next_obj := w.next_obj + 1 })

/-- Read `self._is_logged_in` on object `h` (instance attribute when
written, else the class attribute default `False`). -/
def conn_is_logged_in (w : ConnWorld) (h : Nat) : Bool :=
  (dlookup w.objs h).getD false

/-- Model of `BaoStockConnection.is_connected` (src/core/connection.py,
lines 71-78). -/
def BaoStockConnection.is_connected (w : ConnWorld) (h : Nat) : Bool :=
  conn_is_logged_in w h

/-- Model of `BaoStockConnection.login` (src/core/connection.py, lines 23-45).
Returns (result, new world, whether `bs.login()` was invoked). -/
def BaoStockConnection.login_step (v : VendorResult) (w : ConnWorld)
    (h : Nat) : Bool × ConnWorld × Bool :=
  if conn_is_logged_in w h then (true, w, false)
  else
    match v with
    | .raises => (false, w, true)
    | .resp error_code =>
      if error_code = "0" then
        (true, { w with objs := dictInsert w.objs h true }, true)
      else (false, w, true)

/-- Model of `BaoStockConnection.logout` (src/core/connection.py, lines 47-69).
Returns (result, new world, whether `bs.logout()` was invoked). -/
def BaoStockConnection.logout_step (v : VendorResult) (w : ConnWorld)
    (h : Nat) : Bool × ConnWorld × Bool :=
  if conn_is_logged_in w h = false then (true, w, false)
  else
    match v with
    | .raises => (false, w, true)
    | .resp error_code =>
      if error_code = "0" then
        (true, { w with objs := dictInsert w.objs h false }, true)
      else (false, w, true)

/-- One client interaction: construct a handle via
`BaoStockConnection()` and optionally call `login`/`logout` through it. -/
inductive ConnAct where
  | construct
  | do_login (v : VendorResult)
  | do_logout (v : VendorResult)

/-- Run one interaction; returns the handle the construction produced. -/
def run_act (w : ConnWorld) (a : ConnAct) : Nat × ConnWorld :=
  let (h, w1) := BaoStockConnection.new w
  match a with
  | .construct => (h, w1)
  | .do_login v => (h, (BaoStockConnection.login_step v w1 h).2.1)
  | .do_logout v => (h, (BaoStockConnection.logout_step v w1 h).2.1)

/-- Run a sequence of interactions, collecting every handle returned by
a construction. -/
def run_acts : ConnWorld → List ConnAct → ConnWorld × List Nat
  | w, [] => (w, [])
  | w, a :: rest =>
    let (h, w1) := run_act w a
    let (w2, hs) := run_acts w1 rest
    (w2, h :: hs)

/-! ## BaseQuery (src/core/base_query.py) -/

/-- A BaoStock result-set object `rs`: its `error_code`, its `fields`,
and the row data its `next()`/`get_row_data()` iteration yields. -/
structure BsResult where
  error_code : String
  fields : List String
  data : List (List String)

/-- The `while (rs.error_code == '0') & rs.next(): data_list.append(...)`
loop of `_result_to_dataframe`, collecting into `acc`. -/
def collect_rows (error_code : String) :
    List (List String) → List (List String) → List (List String)
  | [], acc => acc
  | r :: rest, acc =>
    if error_code = "0" then collect_rows error_code rest (acc ++ [r])
    else acc

/-- Model of `BaseQuery._result_to_dataframe` (src/core/base_query.py,
lines 78-101); `BaoStockDataSource._result_to_dataframe`
(src/datasource/baostock_datasource.py, lines 226-249) is identical. -/
def BaseQuery.result_to_dataframe (rs : BsResult) : Option DataFrame :=
  if rs.error_code ≠ "0" then none
  else
    let data_list := collect_rows rs.error_code rs.data []
    if data_list.isEmpty then some DataFrame.emptyFrame
    else some (DataFrame.mk' rs.fields data_list)

/-- Model of `BaseQuery.batch_query` (src/core/base_query.py, lines 103-124):
one query per item, a raised exception mapping the item to `None`,
results collected in a dict keyed by the item.  `query_func` returns
either a result (`.ok`) or raises (`.error`). -/
def BaseQuery.batch_query {ι : Type} [DecidableEq ι] (items : List ι)
    (query_func : ι → Except Unit (Option DataFrame)) :
    List (ι × Option DataFrame) :=
  items.foldl
    (fun results item =>
      match query_func item with
      | .ok result => dictInsert results item result
      | .error _ => dictInsert results item none)
    []

/-! ## CashFlowQuery.query_history (src/queries/cashflow_query.py) -/

/-- The inclusive year range `range(start_year, end_year + 1)`. -/
def hist_years (start_year end_year : Int) : List Int :=
  (List.range (end_year + 1 - start_year).toNat).map
    (fun (i : Nat) => start_year + (i : Int))

/-- Model of `CashFlowQuery.query_history` (src/queries/cashflow_query.py,
lines 149-190).  `q` is `self.query` with the code and quarter already
fixed, as a function of the year; `current_year` is `datetime.now().year`. -/
def CashFlowQuery.query_history (q : Int → Option DataFrame)
    (start_year : Int) (end_year : Option Int) (current_year : Int) :
    Option DataFrame :=
  let end_year := end_year.getD current_year
  if start_year > end_year then none
  else
    let all_data :=
      (hist_years start_year end_year).filterMap fun y =>
        match q y with
        | some df => if df.isEmpty = false then some df else none
        | none => none
    if all_data.isEmpty then some DataFrame.emptyFrame
    else some (pdConcatIgnoreIndex all_data)

/-- An environment in which every adapter is registered and importable,
connecting always succeeds, every datasource supports the queried
method, BaoStock's query returns `None`, and Tushare's query returns a
one-row DataFrame. -/
def env0 : Env :=
  { tushare_registered := true
    akshare_registered := true
    tushare_sdk := true
    akshare_sdk := true
    connect_ok := fun _ => true
    has_method := fun _ => true
    query_result := fun t =>
      match t with
      | .tushare => .returns (DataFrame.mk' ["code"] [["sh.600000"]])
      | _ => .returnsNone }

/-- A freshly configured manager: default BaoStock, fallback Tushare,
empty cache. -/
def mgr0 : Manager :=
  { default_source_type := .baostock
    fallback_sources := [.tushare]
    datasources := []
    next_id := 0 }

/-- The manager state after one `get_datasource` call for BaoStock on the
fresh manager `mgr0`: the constructed adapter is stored in the cache. -/
def mgr1 : Manager :=
  (DataSourceManager.get_datasource env0 mgr0 (some .baostock) true).2

deriving instance DecidableEq for Except

/-- An environment in which the Tushare adapter module imported (so its
class is registered with the factory) but the `tushare` SDK itself is
missing (so the adapter's constructor raises ImportError). -/
def env_no_sdk : Env :=
  { tushare_registered := true
    akshare_registered := true
    tushare_sdk := false
    akshare_sdk := true
    connect_ok := fun _ => true
    has_method := fun _ => true
    query_result := fun _ => .returnsNone }

/-- The per-item result `batch_query` stores: the query's answer, or
`None` when the query raised. -/
def batch_handle {ι : Type} (q : ι → Except Unit (Option DataFrame))
    (x : ι) : Option DataFrame :=
  match q x with
  | .ok r => r
  | .error _ => none

/-- What one year contributes to `all_data` in `query_history`: its
query result, unless it is `None` or empty. -/
def kept_frame (q : Int → Option DataFrame) (y : Int) : Option DataFrame :=
  match q y with
  | some df => if df.isEmpty = false then some df else none
  | none => none

/-- All characters are ASCII digits. -/
def isDigits (s : PyStr) : Prop := ∀ d ∈ s, 48 ≤ d ∧ d ≤ 57

instance (s : PyStr) : Decidable (isDigits s) := by
  unfold isDigits
  infer_instance

/-- The set of well-formed code inputs over a digit core `c`: bare, with
one market prefix, or with one market suffix. -/
def market_forms (c : PyStr) : List PyStr :=
  [c, pystr "sh." ++ c, pystr "sz." ++ c, pystr "SH." ++ c, pystr "SZ." ++ c,
   c ++ pystr ".sh", c ++ pystr ".sz", c ++ pystr ".SH", c ++ pystr ".SZ"]

/-! ## Dict lemmas -/

theorem dlookup_dictInsert_self {ι α : Type} [DecidableEq ι]
    (d : List (ι × α)) (k : ι) (v : α) :
    dlookup (dictInsert d k v) k = some v := by
  induction d with
  | nil => simp [dictInsert, dlookup]
  | cons p rest ih =>
    obtain ⟨k', v'⟩ := p
    by_cases h : k' = k <;> simp [dictInsert, dlookup, h, ih]

theorem dlookup_dictInsert_ne {ι α : Type} [DecidableEq ι]
    (d : List (ι × α)) (k k' : ι) (v : α) (h : k' ≠ k) :
    dlookup (dictInsert d k v) k' = dlookup d k' := by
  induction d with
  | nil => simp [dictInsert, dlookup, Ne.symm h]
  | cons p rest ih =>
    obtain ⟨k'', v''⟩ := p
    by_cases h2 : k'' = k
    · subst h2
      simp [dictInsert, dlookup, Ne.symm h]
    · by_cases h3 : k'' = k'
      · subst h3
        simp [dictInsert, dlookup, h2]
      · simp [dictInsert, dlookup, h2, h3, ih]

theorem mem_keys_dictInsert {ι α : Type} [DecidableEq ι]
    (d : List (ι × α)) (k : ι) (v : α) (x : ι) :
    x ∈ (dictInsert d k v).map Prod.fst ↔ x = k ∨ x ∈ d.map Prod.fst := by
  induction d with
  | nil => simp [dictInsert]
  | cons p rest ih =>
    obtain ⟨k', v'⟩ := p
    by_cases h : k' = k
    · subst h
      simp [dictInsert]
    · simp only [dictInsert, if_neg h, List.map_cons, List.mem_cons, ih]
      tauto

theorem nodup_keys_dictInsert {ι α : Type} [DecidableEq ι]
    (d : List (ι × α)) (k : ι) (v : α)
    (h : (d.map Prod.fst).Nodup) :
    ((dictInsert d k v).map Prod.fst).Nodup := by
  induction d with
  | nil => simp [dictInsert]
  | cons p rest ih =>
    obtain ⟨k', v'⟩ := p
    simp only [List.map_cons, List.nodup_cons] at h
    by_cases h2 : k' = k
    · subst h2
      simpa [dictInsert] using h
    · simp only [dictInsert, if_neg h2, List.map_cons, List.nodup_cons]
      refine ⟨fun hc => ?_, ih h.2⟩
      rcases (mem_keys_dictInsert rest k v k').1 hc with h3 | h3
      · exact h2 h3
      · exact h.1 h3

theorem dlookup_eq_some_of_mem_keys {ι α : Type} [DecidableEq ι]
    (d : List (ι × α)) (x : ι) (h : x ∈ d.map Prod.fst) :
    ∃ v, dlookup d x = some v := by
  induction d with
  | nil => simp at h
  | cons p rest ih =>
    obtain ⟨k', v'⟩ := p
    by_cases h2 : k' = x
    · exact ⟨v', by simp [dlookup, h2]⟩
    · simp only [List.map_cons, List.mem_cons] at h
      rcases h with h | h
      · exact absurd h.symm h2
      · simpa [dlookup, h2] using ih h

theorem dlookup_isSome_iff_mem_keys {ι α : Type} [DecidableEq ι]
    (d : List (ι × α)) (x : ι) :
    (dlookup d x).isSome = true ↔ x ∈ d.map Prod.fst := by
  constructor
  · intro h
    induction d with
    | nil => simp [dlookup] at h
    | cons p rest ih =>
      obtain ⟨k', v'⟩ := p
      by_cases h2 : k' = x
      · simp [h2]
      · simp only [dlookup, if_neg h2] at h
        simp [ih h]
  · intro h
    obtain ⟨v, hv⟩ := dlookup_eq_some_of_mem_keys d x h
    simp [hv]

/-! ## Manager lemmas: availability is invariant along the fallback loop -/

theorem get_datasource_isSome (e : Env) (m : Manager) (t : DataSourceType)
    (auto : Bool) :
    ((DataSourceManager.get_datasource e m (some t) auto).1).isSome =
      source_available e m t := by
  cases hl : dlookup m.datasources t with
  | some ds => simp [DataSourceManager.get_datasource, hl, source_available]
  | none =>
    cases hR : registered e t <;> cases hC : ctor_raises e t <;>
      simp [DataSourceManager.get_datasource, hl, source_available,
        DataSourceFactory.create, hR, hC]

theorem create_ok_flags (e : Env) (t : DataSourceType) (auto : Bool)
    (fresh : Nat) (ds : DataSource)
    (hok : DataSourceFactory.create e t auto fresh = .ok ds) :
    registered e t = true ∧ ctor_raises e t = false := by
  revert hok
  unfold DataSourceFactory.create
  cases hR : registered e t <;> cases hC : ctor_raises e t <;> simp

theorem get_datasource_available_inv (e : Env) (m : Manager)
    (t : DataSourceType) (auto : Bool) (t' : DataSourceType) :
    source_available e (DataSourceManager.get_datasource e m (some t) auto).2 t' =
      source_available e m t' := by
  cases hl : dlookup m.datasources t with
  | some ds =>
    by_cases h : t' = t
    · subst h
      simp [DataSourceManager.get_datasource, hl, source_available,
        dlookup_dictInsert_self]
    · simp [DataSourceManager.get_datasource, hl, source_available,
        dlookup_dictInsert_ne _ _ _ _ h]
  | none =>
    cases hok : DataSourceFactory.create e t auto m.next_id with
    | error fe => simp [DataSourceManager.get_datasource, hl, hok]
    | ok ds =>
      obtain ⟨hreg, hctor⟩ := create_ok_flags e t auto m.next_id ds hok
      by_cases h : t' = t
      · subst h
        simp [DataSourceManager.get_datasource, hl, hok, source_available,
          dlookup_dictInsert_self, hreg, hctor]
      · simp [DataSourceManager.get_datasource, hl, hok, source_available,
          dlookup_dictInsert_ne _ _ _ _ h]

theorem attempt_result_inv (e : Env) (m : Manager) (t : DataSourceType)
    (auto : Bool) (t' : DataSourceType) :
    attempt_result e (DataSourceManager.get_datasource e m (some t) auto).2 t' =
      attempt_result e m t' := by
  unfold attempt_result
  rw [get_datasource_available_inv]

theorem first_attempt_congr (e : Env) (m m' : Manager)
    (h : ∀ t, attempt_result e m' t = attempt_result e m t) :
    ∀ l, first_attempt e m' l = first_attempt e m l := by
  intro l
  induction l with
  | nil => rfl
  | cons s rest ih => simp only [first_attempt, h, ih]

theorem attempt_result_of_unavailable (e : Env) (m : Manager)
    (s : DataSourceType) (hav : source_available e m s = false) :
    attempt_result e m s = none := by
  simp [attempt_result, hav]

theorem attempt_result_of_nomethod (e : Env) (m : Manager)
    (s : DataSourceType) (hm : e.has_method s = false) :
    attempt_result e m s = none := by
  simp [attempt_result, hm]

theorem attempt_result_of_returns (e : Env) (m : Manager)
    (s : DataSourceType) (df : DataFrame)
    (hav : source_available e m s = true) (hm : e.has_method s = true)
    (hq : e.query_result s = .returns df) :
    attempt_result e m s = some df := by
  simp [attempt_result, hav, hm, hq]

theorem attempt_result_of_failure (e : Env) (m : Manager)
    (s : DataSourceType)
    (hq : e.query_result s = .returnsNone ∨ e.query_result s = .raises) :
    attempt_result e m s = none := by
  rcases hq with hq | hq <;>
    · unfold attempt_result
      rw [hq]
      simp

theorem qwf_go_fst (e : Env) :
    ∀ (srcs : List DataSourceType) (m : Manager),
      (DataSourceManager.query_with_fallback_go e srcs m).1 =
        first_attempt e m srcs := by
  intro srcs
  induction srcs with
  | nil => intro m; rfl
  | cons s rest ih =>
    intro m
    rcases hg : DataSourceManager.get_datasource e m (some s) true with ⟨o, m'⟩
    have hinv : ∀ t', attempt_result e m' t' = attempt_result e m t' := by
      intro t'
      have h2 := attempt_result_inv e m s true t'
      rw [hg] at h2
      exact h2
    have hrest : (DataSourceManager.query_with_fallback_go e rest m').1 =
        first_attempt e m rest := by
      rw [ih m']
      exact first_attempt_congr e m m' hinv rest
    have havail : o.isSome = source_available e m s := by
      have h2 := get_datasource_isSome e m s true
      rw [hg] at h2
      exact h2
    cases o with
    | none =>
      have hav : source_available e m s = false := by simpa using havail.symm
      simp only [DataSourceManager.query_with_fallback_go, hg, first_attempt,
        attempt_result_of_unavailable e m s hav]
      exact hrest
    | some ds =>
      have hav : source_available e m s = true := by simpa using havail.symm
      by_cases hm : e.has_method s = false
      · simp only [DataSourceManager.query_with_fallback_go, hg, if_pos hm,
          first_attempt, attempt_result_of_nomethod e m s hm]
        exact hrest
      · have hm' : e.has_method s = true := by simpa using hm
        cases hq : e.query_result s with
        | returns df =>
          simp only [DataSourceManager.query_with_fallback_go, hg,
            if_neg hm, hq, ite_self, first_attempt,
            attempt_result_of_returns e m s df hav hm' hq]
        | returnsNone =>
          simp only [DataSourceManager.query_with_fallback_go, hg,
            if_neg hm, hq, first_attempt,
            attempt_result_of_failure e m s (Or.inl hq)]
          exact hrest
        | raises =>
          simp only [DataSourceManager.query_with_fallback_go, hg,
            if_neg hm, hq, first_attempt,
            attempt_result_of_failure e m s (Or.inr hq)]
          exact hrest

theorem first_attempt_eq_none_iff (e : Env) (m : Manager)
    (l : List DataSourceType) :
    first_attempt e m l = none ↔ ∀ s ∈ l, attempt_result e m s = none := by
  induction l with
  | nil => simp [first_attempt]
  | cons s rest ih =>
    cases ha : attempt_result e m s with
    | some df => simp [first_attempt, ha]
    | none => simp [first_attempt, ha, ih]

theorem first_attempt_eq_some (e : Env) (m : Manager) :
    ∀ (l : List DataSourceType) (df : DataFrame),
      first_attempt e m l = some df →
      ∃ pre s post, l = pre ++ s :: post ∧
        attempt_result e m s = some df ∧
        ∀ t ∈ pre, attempt_result e m t = none := by
  intro l
  induction l with
  | nil => intro df h; simp [first_attempt] at h
  | cons s rest ih =>
    intro df h
    cases ha : attempt_result e m s with
    | some d =>
      refine ⟨[], s, rest, by simp, ?_, by simp⟩
      simp only [first_attempt, ha] at h
      rw [ha, h]
    | none =>
      simp only [first_attempt, ha] at h
      obtain ⟨pre, s', post, hsplit, hs, hpre⟩ := ih df h
      refine ⟨s :: pre, s', post, by simp [hsplit], hs, ?_⟩
      intro t ht
      rcases List.mem_cons.mp ht with ht | ht
      · rw [ht]; exact ha
      · exact hpre t ht

theorem first_attempt_of_split (e : Env) (m : Manager) :
    ∀ (pre : List DataSourceType) (s : DataSourceType)
      (post : List DataSourceType) (df : DataFrame),
      (∀ t ∈ pre, attempt_result e m t = none) →
      attempt_result e m s = some df →
      first_attempt e m (pre ++ s :: post) = some df := by
  intro pre
  induction pre with
  | nil => intro s post df _ hs; simp [first_attempt, hs]
  | cons t pre' ih =>
    intro s post df hpre hs
    have ht : attempt_result e m t = none := hpre t (by simp)
    simp only [List.cons_append, first_attempt, ht]
    exact ih s post df (fun u hu => hpre u (by simp [hu])) hs

/-- C1: a `query_with_fallback` call without an explicit source type tries
the default source first and then the configured fallbacks in order; it
returns the DataFrame of the first source to return a non-None result
(empty or not) and returns `None` exactly when every source in the list
failed (unavailable, method missing, query raised, or query returned
None). -/
theorem claim_C1 (e : Env) (m : Manager) :
    ((DataSourceManager.query_with_fallback e m none).1 = none ↔
      ∀ s ∈ m.default_source_type :: m.fallback_sources,
        attempt_result e m s = none) ∧
    (∀ df, (DataSourceManager.query_with_fallback e m none).1 = some df →
      ∃ pre s post,
        m.default_source_type :: m.fallback_sources = pre ++ s :: post ∧
        attempt_result e m s = some df ∧
        ∀ t ∈ pre, attempt_result e m t = none) ∧
    (∀ df pre s post,
      m.default_source_type :: m.fallback_sources = pre ++ s :: post →
      (∀ t ∈ pre, attempt_result e m t = none) →
      attempt_result e m s = some df →
      (DataSourceManager.query_with_fallback e m none).1 = some df) := by
  have hq : (DataSourceManager.query_with_fallback e m none).1 =
      first_attempt e m (m.default_source_type :: m.fallback_sources) :=
    qwf_go_fst e (m.default_source_type :: m.fallback_sources) m
  refine ⟨?_, ?_, ?_⟩
  · rw [hq]
    exact first_attempt_eq_none_iff e m _
  · intro df h
    rw [hq] at h
    exact first_attempt_eq_some e m _ df h
  · intro df pre s post hsplit hpre hs
    rw [hq, hsplit]
    exact first_attempt_of_split e m pre s post df hpre hs



/-- Witness for C1: with the default source returning `None`, the call
falls back to Tushare and returns its DataFrame. -/
theorem claim_C1_witness :
    (DataSourceManager.query_with_fallback env0 mgr0 none).1 =
      some (DataFrame.mk' ["code"] [["sh.600000"]]) := by
  exact (claim_C1 env0 mgr0).2.2 (DataFrame.mk' ["code"] [["sh.600000"]])
    [.baostock] .tushare [] rfl (by decide) (by decide)

/-- C10: with an explicit `source_type`, only that source is attempted;
the result is that single source's outcome, and on its failure the call
returns `None` no matter what the configured fallbacks would answer. -/
theorem claim_C10 (e : Env) (m : Manager) (t : DataSourceType) :
    (DataSourceManager.query_with_fallback e m (some t)).1 =
      attempt_result e m t ∧
    (attempt_result e m t = none →
      (DataSourceManager.query_with_fallback e m (some t)).1 = none) := by
  have hq : (DataSourceManager.query_with_fallback e m (some t)).1 =
      first_attempt e m [t] := qwf_go_fst e [t] m
  have heq : (DataSourceManager.query_with_fallback e m (some t)).1 =
      attempt_result e m t := by
    rw [hq]
    cases ha : attempt_result e m t <;> simp [first_attempt, ha]
  exact ⟨heq, fun h => by rw [heq, h]⟩

/-- Witness for C10: BaoStock requested explicitly fails (returns None),
and the call returns `None` even though the fallback Tushare would have
returned data. -/
theorem claim_C10_witness :
    (DataSourceManager.query_with_fallback env0 mgr0
        (some DataSourceType.baostock)).1 = none ∧
    attempt_result env0 mgr0 DataSourceType.tushare =
      some (DataFrame.mk' ["code"] [["sh.600000"]]) := by
  exact ⟨(claim_C10 env0 mgr0 .baostock).2 (by decide), by decide⟩

theorem connect_preserves_id (e : Env) (ds : DataSource) :
    (BaseDataSource.connect e ds).id = ds.id := by
  unfold BaseDataSource.connect
  split
  · rfl
  · split <;> rfl


/-- Counterexample to C3: on the second `get_datasource` call for the
same source type, the manager returns exactly the adapter instance it
retained in `self.datasources` after the first call, and constructs
nothing new (`next_id` is unchanged) — the manager does cache. -/
theorem claim_C3_counterexample :
    (DataSourceManager.get_datasource env0 mgr1 (some .baostock) true).1 =
      dlookup mgr1.datasources DataSourceType.baostock ∧
    (dlookup mgr1.datasources DataSourceType.baostock).isSome = true ∧
    (DataSourceManager.get_datasource env0 mgr1 (some .baostock) true).2.next_id =
      mgr1.next_id := by
  decide

/-- C3 amended: `get_datasource` caches adapter instances.  When an
instance for the requested type is stored, the call returns that stored
instance (reconnected when `auto_connect` and it is disconnected) and
constructs nothing; only on a cache miss does it construct a fresh
instance, which it stores for later calls. -/
theorem claim_C3_amended (e : Env) (m : Manager) (t : DataSourceType)
    (auto : Bool) :
    (∀ ds, dlookup m.datasources t = some ds →
      (DataSourceManager.get_datasource e m (some t) auto).1 =
        some (if auto && !ds.is_connected then BaseDataSource.connect e ds
          else ds) ∧
      (DataSourceManager.get_datasource e m (some t) auto).2.next_id =
        m.next_id) ∧
    (dlookup m.datasources t = none → registered e t = true →
      ctor_raises e t = false →
      ∃ ds, (DataSourceManager.get_datasource e m (some t) auto).1 = some ds ∧
        ds.id = m.next_id ∧
        (DataSourceManager.get_datasource e m (some t) auto).2.next_id =
          m.next_id + 1 ∧
        dlookup
          (DataSourceManager.get_datasource e m (some t) auto).2.datasources
          t = some ds) := by
  constructor
  · intro ds h
    constructor <;> simp [DataSourceManager.get_datasource, h]
  · intro h hr hc
    refine ⟨if auto then BaseDataSource.connect e
        { id := m.next_id, source_type := t, is_connected := false }
      else { id := m.next_id, source_type := t, is_connected := false },
      ?_, ?_, ?_, ?_⟩
    · simp [DataSourceManager.get_datasource, h, DataSourceFactory.create, hr, hc]
    · split
      · rw [connect_preserves_id]
      · rfl
    · simp [DataSourceManager.get_datasource, h, DataSourceFactory.create, hr, hc]
    · simp [DataSourceManager.get_datasource, h, DataSourceFactory.create, hr,
        hc, dlookup_dictInsert_self]

/-- Witness for the amended C3, on the concrete manager `mgr1` whose
cache holds the BaoStock adapter constructed by the first call. -/
theorem claim_C3_amended_witness :
    (DataSourceManager.get_datasource env0 mgr1 (some .baostock) true).1 =
      some { id := 0, source_type := .baostock, is_connected := true } ∧
    (DataSourceManager.get_datasource env0 mgr1 (some .baostock) true).2.next_id =
      mgr1.next_id := by
  have h := (claim_C3_amended env0 mgr1 .baostock true).1
    { id := 0, source_type := .baostock, is_connected := true } (by decide)
  exact ⟨by rw [h.1]; decide, h.2⟩

/-! ## Connection lemmas -/

theorem login_step_singleton (v : VendorResult) (w : ConnWorld) (h : Nat) :
    (BaoStockConnection.login_step v w h).2.1.singleton = w.singleton := by
  unfold BaoStockConnection.login_step
  split
  · rfl
  · split
    · rfl
    · split <;> rfl

theorem logout_step_singleton (v : VendorResult) (w : ConnWorld) (h : Nat) :
    (BaoStockConnection.logout_step v w h).2.1.singleton = w.singleton := by
  unfold BaoStockConnection.logout_step
  split
  · rfl
  · split
    · rfl
    · split <;> rfl

theorem run_act_of_singleton (a : ConnAct) (w : ConnWorld) (i : Nat)
    (hw : w.singleton = some i) :
    (run_act w a).1 = i ∧ (run_act w a).2.singleton = some i := by
  have hnew : BaoStockConnection.new w = (i, w) := by
    unfold BaoStockConnection.new
    rw [hw]
  cases a with
  | construct => simp [run_act, hnew, hw]
  | do_login v => simp [run_act, hnew, login_step_singleton, hw]
  | do_logout v => simp [run_act, hnew, logout_step_singleton, hw]

theorem run_acts_inv :
    ∀ (acts : List ConnAct) (w : ConnWorld) (i : Nat),
      w.singleton = some i →
      (run_acts w acts).1.singleton = some i ∧
      ∀ h ∈ (run_acts w acts).2, h = i := by
  intro acts
  induction acts with
  | nil => intro w i hw; simpa [run_acts] using hw
  | cons a rest ih =>
    intro w i hw
    obtain ⟨h1, h2⟩ := run_act_of_singleton a w i hw
    rcases hra : run_act w a with ⟨h0, w1⟩
    rw [hra] at h1 h2
    dsimp only at h1 h2
    obtain ⟨ih1, ih2⟩ := ih w1 i h2
    rcases hrr : run_acts w1 rest with ⟨w2, hs⟩
    rw [hrr] at ih1 ih2
    dsimp only at ih1 ih2
    refine ⟨by simp [run_acts, hra, hrr, ih1], ?_⟩
    intro h hh
    simp only [run_acts, hra, hrr] at hh
    rcases List.mem_cons.mp hh with hh | hh
    · rw [hh, h1]
    · exact ih2 h hh

theorem run_act_init (a : ConnAct) :
    (run_act conn_init a).1 = 0 ∧
    (run_act conn_init a).2.singleton = some 0 := by
  have hnew : BaoStockConnection.new conn_init =
      (0, { singleton := some 0, next_obj := 1, objs := [] }) := rfl
  cases a with
  | construct => simp [run_act, hnew]
  | do_login v => simp [run_act, hnew, login_step_singleton]
  | do_logout v => simp [run_act, hnew, logout_step_singleton]

/-- C4: `BaoStockConnection` is a singleton guarding one shared
login/logout flag: over every interaction sequence, all handles returned
by constructions coincide, `is_connected` observed through any two
handles agrees, and constructing once more returns the same instance
again without changing the state. -/
theorem claim_C4 (acts : List ConnAct) :
    (∀ h1 ∈ (run_acts conn_init acts).2, ∀ h2 ∈ (run_acts conn_init acts).2,
      h1 = h2) ∧
    (∀ h1 ∈ (run_acts conn_init acts).2, ∀ h2 ∈ (run_acts conn_init acts).2,
      BaoStockConnection.is_connected (run_acts conn_init acts).1 h1 =
        BaoStockConnection.is_connected (run_acts conn_init acts).1 h2) ∧
    (∀ h ∈ (run_acts conn_init acts).2,
      BaoStockConnection.new (run_acts conn_init acts).1 =
        (h, (run_acts conn_init acts).1)) := by
  cases acts with
  | nil =>
    simp [run_acts]
  | cons a rest =>
    obtain ⟨h1, h2⟩ := run_act_init a
    rcases hra : run_act conn_init a with ⟨h0, w1⟩
    rw [hra] at h1 h2
    dsimp only at h1 h2
    obtain ⟨ih1, ih2⟩ := run_acts_inv rest w1 0 h2
    rcases hrr : run_acts w1 rest with ⟨w2, hs⟩
    rw [hrr] at ih1 ih2
    dsimp only at ih1 ih2
    have hall : ∀ h ∈ (run_acts conn_init (a :: rest)).2, h = 0 := by
      intro h hh
      simp only [run_acts, hra, hrr] at hh
      rcases List.mem_cons.mp hh with hh | hh
      · rw [hh, h1]
      · exact ih2 h hh
    have hfin : (run_acts conn_init (a :: rest)).1.singleton = some 0 := by
      simp [run_acts, hra, hrr, ih1]
    refine ⟨?_, ?_, ?_⟩
    · intro x hx y hy
      rw [hall x hx, hall y hy]
    · intro x hx y hy
      rw [hall x hx, hall y hy]
    · intro h hh
      rw [hall h hh]
      unfold BaoStockConnection.new
      rw [hfin]

/-- Witness for C4: two constructions around a successful login yield the
same handle, and `is_connected` agrees through both. -/
theorem claim_C4_witness :
    ∀ h1 ∈ (run_acts conn_init
        [ConnAct.construct, ConnAct.do_login (.resp "0"),
         ConnAct.construct]).2,
      ∀ h2 ∈ (run_acts conn_init
        [ConnAct.construct, ConnAct.do_login (.resp "0"),
         ConnAct.construct]).2,
      BaoStockConnection.is_connected
          (run_acts conn_init
            [ConnAct.construct, ConnAct.do_login (.resp "0"),
             ConnAct.construct]).1 h1 =
        BaoStockConnection.is_connected
          (run_acts conn_init
            [ConnAct.construct, ConnAct.do_login (.resp "0"),
             ConnAct.construct]).1 h2 := by
  exact (claim_C4 [ConnAct.construct, ConnAct.do_login (.resp "0"),
    ConnAct.construct]).2.1

theorem conn_is_logged_in_insert (w : ConnWorld) (h : Nat) (b : Bool) :
    conn_is_logged_in { w with objs := dictInsert w.objs h b } h = b := by
  simp [conn_is_logged_in, dlookup_dictInsert_self]

/-- C5: the login/logout state is a single toggle.  `login` on an already
logged-in connection returns `True` without invoking the vendor;
`logout` when not logged in returns `True` without invoking the vendor;
the flag changes only when the corresponding vendor call succeeds with
`error_code` `'0'`; and (against a fixed vendor behaviour) `login` and
`logout` are idempotent in both result and state. -/
theorem claim_C5 (v : VendorResult) (w : ConnWorld) (h : Nat) :
    (conn_is_logged_in w h = true →
      BaoStockConnection.login_step v w h = (true, w, false)) ∧
    (conn_is_logged_in w h = false →
      BaoStockConnection.logout_step v w h = (true, w, false)) ∧
    (conn_is_logged_in (BaoStockConnection.login_step v w h).2.1 h =
        conn_is_logged_in w h ∨
      (v = .resp "0" ∧ (BaoStockConnection.login_step v w h).2.2 = true ∧
        conn_is_logged_in (BaoStockConnection.login_step v w h).2.1 h = true)) ∧
    (conn_is_logged_in (BaoStockConnection.logout_step v w h).2.1 h =
        conn_is_logged_in w h ∨
      (v = .resp "0" ∧ (BaoStockConnection.logout_step v w h).2.2 = true ∧
        conn_is_logged_in (BaoStockConnection.logout_step v w h).2.1 h = false)) ∧
    (BaoStockConnection.login_step v
        (BaoStockConnection.login_step v w h).2.1 h =
      ((BaoStockConnection.login_step v w h).1,
       (BaoStockConnection.login_step v w h).2.1,
       (BaoStockConnection.login_step v
         (BaoStockConnection.login_step v w h).2.1 h).2.2)) ∧
    (BaoStockConnection.logout_step v
        (BaoStockConnection.logout_step v w h).2.1 h =
      ((BaoStockConnection.logout_step v w h).1,
       (BaoStockConnection.logout_step v w h).2.1,
       (BaoStockConnection.logout_step v
         (BaoStockConnection.logout_step v w h).2.1 h).2.2)) := by
  by_cases hl : conn_is_logged_in w h = true
  · cases v with
    | raises =>
      simp [BaoStockConnection.login_step, BaoStockConnection.logout_step, hl]
    | resp ec =>
      by_cases he : ec = "0" <;>
        simp [BaoStockConnection.login_step, BaoStockConnection.logout_step,
          hl, he, conn_is_logged_in_insert]
  · have hl' : conn_is_logged_in w h = false := by simpa using hl
    cases v with
    | raises =>
      simp [BaoStockConnection.login_step, BaoStockConnection.logout_step, hl']
    | resp ec =>
      by_cases he : ec = "0" <;>
        simp [BaoStockConnection.login_step, BaoStockConnection.logout_step,
          hl', he, conn_is_logged_in_insert]

/-- Witness for C5: from the initial state (not logged in), `logout` is a
no-op returning `True` without a vendor call, and a successful `login`
followed by another `login` leaves everything as after the first. -/
theorem claim_C5_witness :
    BaoStockConnection.logout_step (.resp "0") conn_init 0 =
      (true, conn_init, false) ∧
    conn_is_logged_in
      (BaoStockConnection.login_step (.resp "0") conn_init 0).2.1 0 = true := by
  have h := claim_C5 (.resp "0") conn_init 0
  exact ⟨h.2.1 (by decide), by decide⟩

/-! ## BaseQuery lemmas -/

theorem collect_rows_zero :
    ∀ (l acc : List (List String)), collect_rows "0" l acc = acc ++ l := by
  intro l
  induction l with
  | nil => intro acc; simp [collect_rows]
  | cons r rest ih => intro acc; simp [collect_rows, ih]

/-- C6: `_result_to_dataframe` returns `None` exactly when the result's
`error_code` differs from `'0'`; with `error_code` `'0'` and no rows it
returns the empty DataFrame; and otherwise a DataFrame whose columns are
the vendor's `fields` and whose rows are the vendor's row data in
delivered order. -/
theorem claim_C6 (rs : BsResult) :
    (BaseQuery.result_to_dataframe rs = none ↔ rs.error_code ≠ "0") ∧
    (rs.error_code = "0" → rs.data = [] →
      BaseQuery.result_to_dataframe rs = some DataFrame.emptyFrame ∧
      DataFrame.emptyFrame.isEmpty = true) ∧
    (rs.error_code = "0" → rs.data ≠ [] →
      ∃ df, BaseQuery.result_to_dataframe rs = some df ∧
        df.cols = rs.fields ∧ df.rows = rs.data) := by
  by_cases he : rs.error_code = "0"
  · refine ⟨by simp [BaseQuery.result_to_dataframe, he]; split <;> simp, ?_, ?_⟩
    · intro _ hd
      refine ⟨?_, by simp [DataFrame.emptyFrame, DataFrame.isEmpty]⟩
      simp [BaseQuery.result_to_dataframe, he, hd, collect_rows_zero]
    · intro _ hd
      refine ⟨DataFrame.mk' rs.fields rs.data, ?_, rfl, rfl⟩
      simp [BaseQuery.result_to_dataframe, he, collect_rows_zero, hd]
  · exact ⟨by simp [BaseQuery.result_to_dataframe, he],
      fun h => absurd h he, fun h => absurd h he⟩

/-- Witness for C6 on a concrete one-row result set. -/
theorem claim_C6_witness :
    ∃ df, BaseQuery.result_to_dataframe
        { error_code := "0", fields := ["code"], data := [["sh.600000"]] } =
        some df ∧
      df.cols = ["code"] ∧ df.rows = [["sh.600000"]] := by
  exact (claim_C6 _).2.2 rfl (by simp)


theorem batch_query_foldl {ι : Type} [DecidableEq ι]
    (q : ι → Except Unit (Option DataFrame)) :
    ∀ (items : List ι) (acc : List (ι × Option DataFrame)),
      ((acc.map Prod.fst).Nodup →
        ((items.foldl
          (fun results item =>
            match q item with
            | .ok result => dictInsert results item result
            | .error _ => dictInsert results item none) acc).map
              Prod.fst).Nodup) ∧
      (∀ x, dlookup (items.foldl
          (fun results item =>
            match q item with
            | .ok result => dictInsert results item result
            | .error _ => dictInsert results item none) acc) x =
        if x ∈ items then some (batch_handle q x) else dlookup acc x) := by
  intro items
  induction items with
  | nil => intro acc; simp
  | cons i rest ih =>
    intro acc
    have hstep : (match q i with
        | .ok result => dictInsert acc i result
        | .error _ => dictInsert acc i none) =
        dictInsert acc i (batch_handle q i) := by
      unfold batch_handle
      cases q i <;> rfl
    obtain ⟨ihn, ihl⟩ := ih (dictInsert acc i (batch_handle q i))
    constructor
    · intro hnd
      simp only [List.foldl_cons, hstep]
      exact ihn (nodup_keys_dictInsert acc i _ hnd)
    · intro x
      simp only [List.foldl_cons, hstep, ihl x]
      by_cases hxr : x ∈ rest
      · simp [hxr]
      · by_cases hxi : x = i
        · subst hxi
          simp [hxr, dlookup_dictInsert_self]
        · simp [hxr, hxi, dlookup_dictInsert_ne _ _ _ _ hxi]

/-- C8: `batch_query` produces a dict with exactly one entry per input
item, keyed by the item and holding the single-item query's result; an
item whose query raises is mapped to `None`, and the other items are
still queried and present. -/
theorem claim_C8 {ι : Type} [DecidableEq ι] (items : List ι)
    (q : ι → Except Unit (Option DataFrame)) :
    ((BaseQuery.batch_query items q).map Prod.fst).Nodup ∧
    (∀ x, x ∈ (BaseQuery.batch_query items q).map Prod.fst ↔ x ∈ items) ∧
    (∀ x ∈ items,
      dlookup (BaseQuery.batch_query items q) x = some (batch_handle q x)) ∧
    (∀ x ∈ items, q x = .error () →
      dlookup (BaseQuery.batch_query items q) x = some none) := by
  obtain ⟨hn, hl⟩ := batch_query_foldl q items []
  have hl' : ∀ x, dlookup (BaseQuery.batch_query items q) x =
      if x ∈ items then some (batch_handle q x) else none := by
    intro x
    have := hl x
    simpa [BaseQuery.batch_query, dlookup] using this
  refine ⟨by simpa [BaseQuery.batch_query] using hn (by simp), ?_, ?_, ?_⟩
  · intro x
    rw [← dlookup_isSome_iff_mem_keys]
    by_cases hx : x ∈ items <;> simp [hl' x, hx]
  · intro x hx
    simp [hl' x, hx]
  · intro x hx her
    have := hl' x
    rw [this]
    simp [hx, batch_handle, her]

/-- Witness for C8: a two-item batch where the second item's query
raises; the failed item is mapped to `None` and both items have
entries. -/
theorem claim_C8_witness :
    dlookup (BaseQuery.batch_query ["a", "b"]
        (fun s => if s = "b" then .error () else .ok (some DataFrame.emptyFrame)))
      "b" = some none ∧
    dlookup (BaseQuery.batch_query ["a", "b"]
        (fun s => if s = "b" then .error () else .ok (some DataFrame.emptyFrame)))
      "a" = some (some DataFrame.emptyFrame) := by
  have h := claim_C8 ["a", "b"]
    (fun s => if s = "b" then .error () else .ok (some DataFrame.emptyFrame))
  refine ⟨h.2.2.2 "b" (by simp) (by simp), ?_⟩
  have h2 := h.2.2.1 "a" (by simp)
  rw [h2]
  rfl

/-! ## query_history lemmas -/


theorem mem_hist_years (s e y : Int) :
    y ∈ hist_years s e ↔ s ≤ y ∧ y ≤ e := by
  unfold hist_years
  rw [List.mem_map]
  constructor
  · rintro ⟨i, hi, rfl⟩
    rw [List.mem_range] at hi
    omega
  · rintro ⟨h1, h2⟩
    refine ⟨(y - s).toNat, ?_, ?_⟩
    · rw [List.mem_range]
      omega
    · omega

theorem hist_years_sorted (s e : Int) :
    (hist_years s e).Pairwise (· < ·) := by
  unfold hist_years
  rw [List.pairwise_map]
  exact List.Pairwise.imp (fun hab => by omega) (List.pairwise_lt_range _)

theorem flatMap_filterMap {α β γ : Type} (f : α → Option β) (g : β → List γ) :
    ∀ l : List α,
      (l.filterMap f).flatMap g =
        l.flatMap (fun a => ((f a).map g).getD []) := by
  intro l
  induction l with
  | nil => rfl
  | cons a rest ih =>
    cases hf : f a <;>
      simp [List.filterMap_cons, hf, ih]

/-- C7: `query_history` returns `None` exactly when `start_year` exceeds
the (defaulted) `end_year`; otherwise it visits every year from
`start_year` through `end_year` inclusive, in increasing order, keeps the
non-None non-empty per-year frames, concatenates their rows in that
order under a fresh integer index, and yields the empty DataFrame when
no year produced data. -/
theorem claim_C7 (q : Int → Option DataFrame) (start_year : Int)
    (end_year : Option Int) (current_year : Int) :
    (CashFlowQuery.query_history q start_year end_year current_year = none ↔
      start_year > end_year.getD current_year) ∧
    (∀ y, y ∈ hist_years start_year (end_year.getD current_year) ↔
      start_year ≤ y ∧ y ≤ end_year.getD current_year) ∧
    (hist_years start_year (end_year.getD current_year)).Pairwise (· < ·) ∧
    (start_year ≤ end_year.getD current_year →
      ∃ df,
        CashFlowQuery.query_history q start_year end_year current_year =
          some df ∧
        df.rows =
          (hist_years start_year (end_year.getD current_year)).flatMap
            (fun y => ((kept_frame q y).map DataFrame.rows).getD []) ∧
        df.idx = List.range df.rows.length ∧
        ((∀ y, start_year ≤ y → y ≤ end_year.getD current_year →
            kept_frame q y = none) →
          df = DataFrame.emptyFrame)) := by
  by_cases hgt : start_year > end_year.getD current_year
  · refine ⟨by simp [CashFlowQuery.query_history, hgt],
      fun y => mem_hist_years _ _ y, hist_years_sorted _ _,
      fun hse => absurd hgt (by omega)⟩
  · have hq : CashFlowQuery.query_history q start_year end_year current_year =
        (if ((hist_years start_year (end_year.getD current_year)).filterMap
            (kept_frame q)).isEmpty
         then some DataFrame.emptyFrame
         else some (pdConcatIgnoreIndex
           ((hist_years start_year (end_year.getD current_year)).filterMap
             (kept_frame q)))) := by
      simp only [CashFlowQuery.query_history, if_neg hgt]
      rfl
    refine ⟨?_, fun y => mem_hist_years _ _ y, hist_years_sorted _ _, ?_⟩
    · rw [hq]
      constructor
      · intro h
        exact absurd h (by split <;> simp)
      · intro h
        exact absurd h hgt
    · intro hse
      have hdata :
          ((hist_years start_year (end_year.getD current_year)).filterMap
            (kept_frame q)).flatMap DataFrame.rows =
          (hist_years start_year (end_year.getD current_year)).flatMap
            (fun y => ((kept_frame q y).map DataFrame.rows).getD []) :=
        flatMap_filterMap (kept_frame q) DataFrame.rows _
      cases hL : (hist_years start_year
          (end_year.getD current_year)).filterMap (kept_frame q) with
      | nil =>
        refine ⟨DataFrame.emptyFrame, ?_, ?_, rfl, fun _ => rfl⟩
        · rw [hq, hL]
          rfl
        · rw [← hdata, hL]
          rfl
      | cons d l' =>
        refine ⟨pdConcatIgnoreIndex (d :: l'), ?_, ?_, rfl, ?_⟩
        · rw [hq, hL]
          rfl
        · rw [← hdata, hL]
          rfl
        · intro habs
          exfalso
          have hnil : (hist_years start_year
              (end_year.getD current_year)).filterMap (kept_frame q) = [] := by
            rw [List.filterMap_eq_nil_iff]
            intro y hy
            obtain ⟨h1, h2⟩ := (mem_hist_years _ _ y).1 hy
            exact habs y h1 h2
          rw [hnil] at hL
          exact List.noConfusion hL

/-- Witness for C7: two years, the first returning data and the second
`None`, concatenate to the first year's rows. -/
theorem claim_C7_witness :
    ∃ df,
      CashFlowQuery.query_history
          (fun y => if y = 2022 then some (DataFrame.mk' ["code"] [["r1"]])
            else none)
          2022 (some 2023) 2024 = some df ∧
      df.rows = [["r1"]] := by
  obtain ⟨df, hdf, hrows, _, _⟩ :=
    (claim_C7
      (fun y => if y = 2022 then some (DataFrame.mk' ["code"] [["r1"]])
        else none)
      2022 (some 2023) 2024).2.2.2 (by norm_num)
  refine ⟨df, hdf, ?_⟩
  rw [hrows]
  decide

/-! ## Factory lemmas -/

theorem connect_preserves_source_type (e : Env) (ds : DataSource) :
    (BaseDataSource.connect e ds).source_type = ds.source_type := by
  unfold BaseDataSource.connect
  split
  · rfl
  · split <;> rfl

theorem find?_typeValue (t : DataSourceType) :
    allSourceTypes.find? (fun u => typeValue u == typeValue t) = some t := by
  cases t <;> decide




/-- Counterexample to C2: `'tushare'` names a registered adapter type,
yet `create_from_string` does not return an instance — the adapter's
constructor raises ImportError (which `create` re-raises as
ImportError, not ValueError) because the underlying SDK is missing. -/
theorem claim_C2_counterexample :
    registered env_no_sdk .tushare = true ∧
    DataSourceFactory.create_from_string env_no_sdk (pystr "tushare") true 0 =
      .error .importError := by
  decide

/-- C2 amended: after lower-casing and stripping, a name matching the
enum value of a registered adapter type yields an instance of that
adapter's class when the adapter's SDK import succeeded, and raises
ImportError when the adapter is registered but its SDK import failed;
every other string — one matching no enum value, or matching an enum
member with no registered class, such as `'wind'` — raises ValueError. -/
theorem claim_C2_amended (e : Env) (name : PyStr) (auto : Bool) (fresh : Nat) :
    (∀ t, pyStrip (pyLower name) = typeValue t →
      (registered e t = true → ctor_raises e t = false →
        ∃ ds,
          DataSourceFactory.create_from_string e name auto fresh = .ok ds ∧
          ds.source_type = t) ∧
      (registered e t = true → ctor_raises e t = true →
        DataSourceFactory.create_from_string e name auto fresh =
          .error .importError) ∧
      (registered e t = false →
        DataSourceFactory.create_from_string e name auto fresh =
          .error .valueError)) ∧
    ((∀ t, pyStrip (pyLower name) ≠ typeValue t) →
      DataSourceFactory.create_from_string e name auto fresh =
        .error .valueError) := by
  constructor
  · intro t ht
    have hfind : allSourceTypes.find?
        (fun u => typeValue u == pyStrip (pyLower name)) = some t := by
      rw [ht]
      exact find?_typeValue t
    refine ⟨?_, ?_, ?_⟩
    · intro hr hc
      refine ⟨if auto then BaseDataSource.connect e
          { id := fresh, source_type := t, is_connected := false }
        else { id := fresh, source_type := t, is_connected := false },
        ?_, ?_⟩
      · simp [DataSourceFactory.create_from_string, hfind,
          DataSourceFactory.create, hr, hc]
      · split
        · rw [connect_preserves_source_type]
        · rfl
    · intro hr hc
      simp [DataSourceFactory.create_from_string, hfind,
        DataSourceFactory.create, hr, hc]
    · intro hr
      simp [DataSourceFactory.create_from_string, hfind,
        DataSourceFactory.create, hr]
  · intro hno
    have hfind : allSourceTypes.find?
        (fun u => typeValue u == pyStrip (pyLower name)) = none := by
      rw [List.find?_eq_none]
      intro u _
      simp only [beq_iff_eq]
      exact fun hu => hno u hu.symm
    simp [DataSourceFactory.create_from_string, hfind]

/-- Witness for the amended C2: `' Tushare '` lower-cases and strips to
`'tushare'` and, with the SDK present, yields a Tushare adapter
instance; `'wind'` names an enum member with no registered class and
raises ValueError. -/
theorem claim_C2_amended_witness :
    (∃ ds, DataSourceFactory.create_from_string env0 (pystr " Tushare ")
        true 7 = .ok ds ∧ ds.source_type = .tushare) ∧
    DataSourceFactory.create_from_string env0 (pystr "wind") true 7 =
      .error .valueError := by
  constructor
  · exact ((claim_C2_amended env0 (pystr " Tushare ") true 7).1 .tushare
      (by decide)).1 (by decide) (by decide)
  · exact ((claim_C2_amended env0 (pystr "wind") true 7).1 .wind
      (by decide)).2.2 (by decide)

/-! ## String lemmas for normalize_code -/


theorem noWS_of_isDigits {c : PyStr} (hc : isDigits c) :
    ∀ d ∈ c, isSpaceNat d = false := by
  intro d hd
  have h := hc d hd
  simp only [isSpaceNat, Bool.or_eq_false_iff, beq_eq_false_iff_ne, ne_eq,
    Bool.and_eq_false_iff, decide_eq_false_iff_not, not_le]
  omega

theorem dropWhile_eq_self_of_isSpace {s : PyStr}
    (h : ∀ c ∈ s, isSpaceNat c = false) :
    s.dropWhile isSpaceNat = s := by
  cases s with
  | nil => rfl
  | cons a l =>
    rw [List.dropWhile_cons, if_neg]
    simp [h a (by simp)]

theorem pyStrip_eq_self {s : PyStr} (h : ∀ c ∈ s, isSpaceNat c = false) :
    pyStrip s = s := by
  unfold pyStrip
  rw [dropWhile_eq_self_of_isSpace h,
    dropWhile_eq_self_of_isSpace (fun c hc => h c (List.mem_reverse.mp hc)),
    List.reverse_reverse]

theorem pyLower_eq_self {s : PyStr} (h : ∀ c ∈ s, lowerNat c = c) :
    pyLower s = s := by
  unfold pyLower
  rw [List.map_congr_left h]
  exact List.map_id _

theorem pyUpper_eq_self {s : PyStr} (h : ∀ c ∈ s, upperNat c = c) :
    pyUpper s = s := by
  unfold pyUpper
  rw [List.map_congr_left h]
  exact List.map_id _

theorem lowerNat_digit {d : Nat} (h1 : 48 ≤ d) (h2 : d ≤ 57) :
    lowerNat d = d := by
  simp only [lowerNat]
  rw [if_neg (by omega)]

theorem upperNat_digit {d : Nat} (h1 : 48 ≤ d) (h2 : d ≤ 57) :
    upperNat d = d := by
  simp only [upperNat]
  rw [if_neg (by omega)]

theorem pyRemoveAux_nil (p : Nat) (ps : List Nat) (fuel : Nat) :
    pyRemoveAux p ps fuel [] = [] := by
  cases fuel <;> rfl

theorem pyRemoveAux_eq_self (p : Nat) (ps : List Nat) :
    ∀ (fuel : Nat) (s : PyStr),
      (∀ t, t <:+ s → ¬ (p :: ps) <+: t) →
      pyRemoveAux p ps fuel s = s := by
  intro fuel
  induction fuel with
  | zero => intro s _; rfl
  | succ f ih =>
    intro s hs
    cases s with
    | nil => rfl
    | cons c rest =>
      have hpre : ((p :: ps).isPrefixOf (c :: rest)) = false := by
        rw [Bool.eq_false_iff]
        intro hp
        exact hs (c :: rest) (List.suffix_refl _)
          (List.isPrefixOf_iff_prefix.mp hp)
      have hstep : pyRemoveAux p ps (f + 1) (c :: rest) =
          if (p :: ps).isPrefixOf (c :: rest) then
            pyRemoveAux p ps f (rest.drop ps.length)
          else c :: pyRemoveAux p ps f rest := rfl
      rw [hstep, if_neg (by simp [hpre])]
      rw [ih rest (fun t ht => hs t (ht.trans (List.suffix_cons c rest)))]

theorem pyRemoveAux_fuel_eq (p : Nat) (ps : List Nat) :
    ∀ (f : Nat) (s : PyStr) (g : Nat), s.length ≤ f → s.length ≤ g →
      pyRemoveAux p ps f s = pyRemoveAux p ps g s := by
  intro f
  induction f using Nat.strong_induction_on with
  | _ f ih =>
    intro s g hf hg
    cases s with
    | nil => rw [pyRemoveAux_nil, pyRemoveAux_nil]
    | cons c rest =>
      cases f with
      | zero => simp at hf
      | succ f' =>
        cases g with
        | zero => simp at hg
        | succ g' =>
          simp only [pyRemoveAux]
          split
          · refine ih f' (by omega) _ g' ?_ ?_ <;>
              · rw [List.length_drop]
                simp at hf hg
                omega
          · rw [ih f' (by omega) rest g' (by simp at hf; omega)
              (by simp at hg; omega)]

theorem py_replace_head (p : Nat) (ps : List Nat) (t : PyStr) :
    py_replace ((p :: ps) ++ t) (p :: ps) = py_replace t (p :: ps) := by
  show pyRemoveAux p ps ((p :: ps) ++ t).length ((p :: ps) ++ t) =
    pyRemoveAux p ps t.length t
  have hlen : ((p :: ps) ++ t).length = (ps.length + t.length) + 1 := by
    simp [List.length_append]
  have hpre : ((p :: ps).isPrefixOf (p :: (ps ++ t))) = true := by
    rw [List.isPrefixOf_iff_prefix]
    exact ⟨t, rfl⟩
  have hstep : pyRemoveAux p ps ((ps.length + t.length) + 1) (p :: (ps ++ t)) =
      if (p :: ps).isPrefixOf (p :: (ps ++ t)) then
        pyRemoveAux p ps (ps.length + t.length) ((ps ++ t).drop ps.length)
      else p :: pyRemoveAux p ps (ps.length + t.length) (ps ++ t) := rfl
  rw [hlen, List.cons_append, hstep, if_pos hpre, List.drop_left]
  exact pyRemoveAux_fuel_eq p ps _ t _ (by omega) (by omega)

theorem py_replace_cons_ne (p d : Nat) (ps : List Nat) (s : PyStr)
    (hd : d ≠ p) :
    py_replace (d :: s) (p :: ps) = d :: py_replace s (p :: ps) := by
  show pyRemoveAux p ps (s.length + 1) (d :: s) =
    d :: pyRemoveAux p ps s.length s
  have hpre : ((p :: ps).isPrefixOf (d :: s)) = false := by
    rw [Bool.eq_false_iff]
    intro hp
    have h2 := (List.cons_prefix_cons.mp (List.isPrefixOf_iff_prefix.mp hp)).1
    exact hd h2.symm
  have hstep : pyRemoveAux p ps (s.length + 1) (d :: s) =
      if (p :: ps).isPrefixOf (d :: s) then
        pyRemoveAux p ps s.length (s.drop ps.length)
      else d :: pyRemoveAux p ps s.length s := rfl
  rw [hstep, if_neg (by simp [hpre])]

theorem py_replace_tail (p : Nat) (ps : List Nat) :
    ∀ (c : PyStr), (∀ d ∈ c, d ≠ p) →
      py_replace (c ++ (p :: ps)) (p :: ps) = c := by
  intro c
  induction c with
  | nil =>
    intro _
    rw [List.nil_append]
    have h := py_replace_head p ps []
    rw [List.append_nil] at h
    rw [h]
    rfl
  | cons d c' ih =>
    intro hc
    rw [List.cons_append, py_replace_cons_ne p d ps _ (hc d (by simp)),
      ih (fun x hx => hc x (by simp [hx]))]

theorem py_replace_eq_self (p : Nat) (ps : List Nat) (s : PyStr)
    (h : ∃ a ∈ p :: ps, a ∉ s) :
    py_replace s (p :: ps) = s := by
  obtain ⟨a, ha, hns⟩ := h
  refine pyRemoveAux_eq_self p ps s.length s ?_
  intro t ht hpre
  exact hns (ht.subset (hpre.subset ha))

theorem not_mem_digits {c : PyStr} (hc : isDigits c) {a : Nat}
    (ha : a < 48 ∨ 57 < a) : a ∉ c := by
  intro h
  have := hc a h
  omega

theorem forall_mem_append {P : Nat → Prop} {l1 l2 : PyStr}
    (h1 : ∀ x ∈ l1, P x) (h2 : ∀ x ∈ l2, P x) :
    ∀ x ∈ l1 ++ l2, P x := by
  intro x hx
  rcases List.mem_append.mp hx with h | h
  · exact h1 x h
  · exact h2 x h

theorem cons_isPrefixOf_eq_false (p : Nat) (ps : List Nat) :
    ∀ (s : PyStr), (∀ d, s.head? = some d → d ≠ p) →
      (p :: ps).isPrefixOf s = false := by
  intro s hs
  cases s with
  | nil => rfl
  | cons d r =>
    rw [Bool.eq_false_iff]
    intro hp
    exact hs d rfl
      ((List.cons_prefix_cons.mp (List.isPrefixOf_iff_prefix.mp hp)).1).symm

theorem head_ne_of_digits {c : PyStr} (hc : isDigits c) {p : Nat}
    (hp : p < 48 ∨ 57 < p) :
    ∀ d, c.head? = some d → d ≠ p := by
  intro d hd
  cases c with
  | nil => simp at hd
  | cons e r =>
    simp only [List.head?_cons, Option.some.injEq] at hd
    subst hd
    have := hc e (by simp)
    omega

theorem head_ne_of_digits_append {c : PyStr} (hc : isDigits c)
    {a : Nat} (rest2 : PyStr) {p : Nat} (hp : p < 48 ∨ 57 < p) (hap : a ≠ p) :
    ∀ d, (c ++ (a :: rest2)).head? = some d → d ≠ p := by
  intro d hd
  cases c with
  | nil =>
    simp only [List.nil_append, List.head?_cons, Option.some.injEq] at hd
    subst hd
    exact hap
  | cons e r =>
    simp only [List.cons_append, List.head?_cons, Option.some.injEq] at hd
    subst hd
    have := hc e (by simp)
    omega

theorem py_replace_long (p : Nat) (ps : List Nat) (s : PyStr)
    (h : s.length < ps.length + 1) : py_replace s (p :: ps) = s := by
  refine pyRemoveAux_eq_self p ps s.length s ?_
  intro t ht hpre
  have h1 := hpre.length_le
  have h2 := ht.length_le
  simp at h1
  omega

theorem dotXY_not_suffix (x y : Nat) (hy46 : y ≠ 46)
    (hyd : y < 48 ∨ 57 < y) (u v : Nat) (c : PyStr) (hc : isDigits c) :
    ([46, x, y].isSuffixOf ([u, v, 46] ++ c)) = false := by
  rw [Bool.eq_false_iff]
  intro hsuf
  have h := List.isSuffixOf_iff_suffix.mp hsuf
  have h2 : ([46, x, y].reverse : PyStr) <+: ([u, v, 46] ++ c).reverse :=
    List.reverse_prefix.mpr h
  rw [List.reverse_append] at h2
  have hrev : ([46, x, y] : PyStr).reverse = [y, x, 46] := by simp
  rw [hrev] at h2
  cases hcr : c.reverse with
  | nil =>
    rw [hcr, List.nil_append] at h2
    have hrev2 : ([u, v, 46] : PyStr).reverse = [46, v, u] := by simp
    rw [hrev2] at h2
    exact hy46 (List.cons_prefix_cons.mp h2).1
  | cons d r =>
    rw [hcr, List.cons_append] at h2
    have hyd2 := (List.cons_prefix_cons.mp h2).1
    subst hyd2
    have hdc : y ∈ c := by
      rw [← List.mem_reverse, hcr]
      simp
    have := hc y hdc
    omega

theorem isSuffixOf_append_self (l1 l2 : PyStr) :
    (l2.isSuffixOf (l1 ++ l2)) = true := by
  rw [List.isSuffixOf_iff_suffix]
  exact List.suffix_append l1 l2

theorem py_replace_pat_rot (a b : Nat) (ha46 : a ≠ 46)
    (had : a < 48 ∨ 57 < a) (hab : a ≠ b) :
    ∀ (c : PyStr), isDigits c →
      py_replace (c ++ [46, a, b]) [a, b, 46] = c ++ [46, a, b] := by
  intro c
  induction c with
  | nil =>
    intro _
    rw [List.nil_append]
    rw [show ([46, a, b] : PyStr) = 46 :: [a, b] from rfl,
      py_replace_cons_ne a 46 [b, 46] [a, b] (Ne.symm ha46)]
    rw [py_replace_long a [b, 46] [a, b] (by simp)]
  | cons d c' ih =>
    intro hc
    have hd := hc d (by simp)
    rw [List.cons_append,
      py_replace_cons_ne a d [b, 46] _ (by omega),
      ih (fun x hx => hc x (by simp [hx]))]

theorem pystr_sh : pystr "sh." = [115, 104, 46] := by decide

theorem pystr_sz : pystr "sz." = [115, 122, 46] := by decide

theorem pystr_SH : pystr "SH." = [83, 72, 46] := by decide

theorem pystr_SZ : pystr "SZ." = [83, 90, 46] := by decide

theorem pystr_dot_sh : pystr ".sh" = [46, 115, 104] := by decide

theorem pystr_dot_sz : pystr ".sz" = [46, 115, 122] := by decide

theorem pystr_dot_SH : pystr ".SH" = [46, 83, 72] := by decide

theorem pystr_dot_SZ : pystr ".SZ" = [46, 83, 90] := by decide

theorem digits_lowerNat {c : PyStr} (hc : isDigits c) :
    ∀ d ∈ c, lowerNat d = d :=
  fun d hd => lowerNat_digit (hc d hd).1 (hc d hd).2

theorem digits_upperNat {c : PyStr} (hc : isDigits c) :
    ∀ d ∈ c, upperNat d = d :=
  fun d hd => upperNat_digit (hc d hd).1 (hc d hd).2

theorem pyLower_append (a b : PyStr) :
    pyLower (a ++ b) = pyLower a ++ pyLower b := List.map_append _ _ _

theorem pyUpper_append (a b : PyStr) :
    pyUpper (a ++ b) = pyUpper a ++ pyUpper b := List.map_append _ _ _

theorem not_mem_lit_append {a : Nat} {lit : PyStr} (ha : a ∉ lit)
    {c : PyStr} (hc : isDigits c) (had : a < 48 ∨ 57 < a) :
    a ∉ lit ++ c := by
  intro h
  rcases List.mem_append.mp h with h | h
  · exact ha h
  · exact not_mem_digits hc had h

theorem not_mem_append_lit {a : Nat} {lit : PyStr} (ha : a ∉ lit)
    {c : PyStr} (hc : isDigits c) (had : a < 48 ∨ 57 < a) :
    a ∉ c ++ lit := by
  intro h
  rcases List.mem_append.mp h with h | h
  · exact not_mem_digits hc had h
  · exact ha h


/-! ### BaoStock normalize_code evaluation -/

theorem bao_fixed_of (s : PyStr) (h1 : ∀ ch ∈ s, isSpaceNat ch = false)
    (h2 : ∀ ch ∈ s, lowerNat ch = ch)
    (h3 : ((pystr "sh.").isPrefixOf s || (pystr "sz.").isPrefixOf s) = true) :
    BaoStockDataSource.normalize_code s = s := by
  simp only [BaoStockDataSource.normalize_code]
  rw [pyStrip_eq_self h1, pyLower_eq_self h2, if_pos h3]

theorem bao_fixed_sh (c : PyStr) (hc : isDigits c) :
    BaoStockDataSource.normalize_code (pystr "sh." ++ c) = pystr "sh." ++ c := by
  refine bao_fixed_of _ (forall_mem_append (by decide) (noWS_of_isDigits hc))
    (forall_mem_append (by decide) (digits_lowerNat hc)) ?_
  rw [Bool.or_eq_true]
  exact Or.inl (List.isPrefixOf_iff_prefix.mpr (List.prefix_append _ _))

theorem bao_fixed_sz (c : PyStr) (hc : isDigits c) :
    BaoStockDataSource.normalize_code (pystr "sz." ++ c) = pystr "sz." ++ c := by
  refine bao_fixed_of _ (forall_mem_append (by decide) (noWS_of_isDigits hc))
    (forall_mem_append (by decide) (digits_lowerNat hc)) ?_
  rw [Bool.or_eq_true]
  exact Or.inr (List.isPrefixOf_iff_prefix.mpr (List.prefix_append _ _))

theorem bao_eval_digits (c : PyStr) (hc : isDigits c) :
    BaoStockDataSource.normalize_code c =
      (if (pystr "6").isPrefixOf c then pystr "sh." ++ c
       else if ((pystr "0").isPrefixOf c || (pystr "3").isPrefixOf c) then
         pystr "sz." ++ c
       else pystr "sh." ++ c) := by
  have hsh : (pystr "sh.").isPrefixOf c = false := by
    rw [pystr_sh]
    exact cons_isPrefixOf_eq_false _ _ c (head_ne_of_digits hc (by omega))
  have hsz : (pystr "sz.").isPrefixOf c = false := by
    rw [pystr_sz]
    exact cons_isPrefixOf_eq_false _ _ c (head_ne_of_digits hc (by omega))
  have r1 : py_replace c (pystr ".sh") = c := by
    rw [pystr_dot_sh]
    exact py_replace_eq_self _ _ c
      ⟨46, by simp, not_mem_digits hc (by omega)⟩
  have r2 : py_replace c (pystr ".sz") = c := by
    rw [pystr_dot_sz]
    exact py_replace_eq_self _ _ c
      ⟨46, by simp, not_mem_digits hc (by omega)⟩
  simp only [BaoStockDataSource.normalize_code]
  rw [pyStrip_eq_self (noWS_of_isDigits hc),
    pyLower_eq_self (digits_lowerNat hc), if_neg (by simp [hsh, hsz]),
    r1, r2]

theorem bao_core (c : PyStr) (hc : isDigits c) :
    BaoStockDataSource.normalize_code c = pystr "sh." ++ c ∨
    BaoStockDataSource.normalize_code c = pystr "sz." ++ c := by
  rw [bao_eval_digits c hc]
  split
  · exact Or.inl rfl
  · split
    · exact Or.inr rfl
    · exact Or.inl rfl

theorem bao_prefix_SH (c : PyStr) (hc : isDigits c) :
    BaoStockDataSource.normalize_code (pystr "SH." ++ c) = pystr "sh." ++ c := by
  have hlow : pyLower (pystr "SH." ++ c) = pystr "sh." ++ c := by
    rw [pyLower_append, pyLower_eq_self (digits_lowerNat hc),
      show pyLower (pystr "SH.") = pystr "sh." from by decide]
  simp only [BaoStockDataSource.normalize_code]
  rw [pyStrip_eq_self (forall_mem_append (by decide) (noWS_of_isDigits hc)),
    hlow, if_pos ?_]
  rw [Bool.or_eq_true]
  exact Or.inl (List.isPrefixOf_iff_prefix.mpr (List.prefix_append _ _))

theorem bao_prefix_SZ (c : PyStr) (hc : isDigits c) :
    BaoStockDataSource.normalize_code (pystr "SZ." ++ c) = pystr "sz." ++ c := by
  have hlow : pyLower (pystr "SZ." ++ c) = pystr "sz." ++ c := by
    rw [pyLower_append, pyLower_eq_self (digits_lowerNat hc),
      show pyLower (pystr "SZ.") = pystr "sz." from by decide]
  simp only [BaoStockDataSource.normalize_code]
  rw [pyStrip_eq_self (forall_mem_append (by decide) (noWS_of_isDigits hc)),
    hlow, if_pos ?_]
  rw [Bool.or_eq_true]
  exact Or.inr (List.isPrefixOf_iff_prefix.mpr (List.prefix_append _ _))

theorem bao_dot_sh (c : PyStr) (hc : isDigits c) :
    BaoStockDataSource.normalize_code (c ++ pystr ".sh") =
      BaoStockDataSource.normalize_code c := by
  have hsh : (pystr "sh.").isPrefixOf (c ++ pystr ".sh") = false := by
    rw [pystr_sh, pystr_dot_sh]
    exact cons_isPrefixOf_eq_false _ _ _
      (head_ne_of_digits_append hc _ (by omega) (by omega))
  have hsz : (pystr "sz.").isPrefixOf (c ++ pystr ".sh") = false := by
    rw [pystr_sz, pystr_dot_sh]
    exact cons_isPrefixOf_eq_false _ _ _
      (head_ne_of_digits_append hc _ (by omega) (by omega))
  have r1 : py_replace (c ++ pystr ".sh") (pystr ".sh") = c := by
    rw [pystr_dot_sh]
    exact py_replace_tail 46 [115, 104] c
      (fun d hd => by have := hc d hd; omega)
  have r2 : py_replace c (pystr ".sz") = c := by
    rw [pystr_dot_sz]
    exact py_replace_eq_self _ _ c ⟨46, by simp, not_mem_digits hc (by omega)⟩
  rw [bao_eval_digits c hc]
  simp only [BaoStockDataSource.normalize_code]
  rw [pyStrip_eq_self (forall_mem_append (noWS_of_isDigits hc) (by decide)),
    pyLower_eq_self (forall_mem_append (digits_lowerNat hc) (by decide)),
    if_neg (by simp [hsh, hsz]), r1, r2]

theorem bao_dot_SH (c : PyStr) (hc : isDigits c) :
    BaoStockDataSource.normalize_code (c ++ pystr ".SH") =
      BaoStockDataSource.normalize_code c := by
  have hlow : pyLower (c ++ pystr ".SH") = c ++ pystr ".sh" := by
    rw [pyLower_append, pyLower_eq_self (digits_lowerNat hc),
      show pyLower (pystr ".SH") = pystr ".sh" from by decide]
  have hsh : (pystr "sh.").isPrefixOf (c ++ pystr ".sh") = false := by
    rw [pystr_sh, pystr_dot_sh]
    exact cons_isPrefixOf_eq_false _ _ _
      (head_ne_of_digits_append hc _ (by omega) (by omega))
  have hsz : (pystr "sz.").isPrefixOf (c ++ pystr ".sh") = false := by
    rw [pystr_sz, pystr_dot_sh]
    exact cons_isPrefixOf_eq_false _ _ _
      (head_ne_of_digits_append hc _ (by omega) (by omega))
  have r1 : py_replace (c ++ pystr ".sh") (pystr ".sh") = c := by
    rw [pystr_dot_sh]
    exact py_replace_tail 46 [115, 104] c
      (fun d hd => by have := hc d hd; omega)
  have r2 : py_replace c (pystr ".sz") = c := by
    rw [pystr_dot_sz]
    exact py_replace_eq_self _ _ c ⟨46, by simp, not_mem_digits hc (by omega)⟩
  rw [bao_eval_digits c hc]
  simp only [BaoStockDataSource.normalize_code]
  rw [pyStrip_eq_self (forall_mem_append (noWS_of_isDigits hc) (by decide)),
    hlow, if_neg (by simp [hsh, hsz]), r1, r2]

theorem bao_dot_sz (c : PyStr) (hc : isDigits c) :
    BaoStockDataSource.normalize_code (c ++ pystr ".sz") =
      BaoStockDataSource.normalize_code c := by
  have hsh : (pystr "sh.").isPrefixOf (c ++ pystr ".sz") = false := by
    rw [pystr_sh, pystr_dot_sz]
    exact cons_isPrefixOf_eq_false _ _ _
      (head_ne_of_digits_append hc _ (by omega) (by omega))
  have hsz : (pystr "sz.").isPrefixOf (c ++ pystr ".sz") = false := by
    rw [pystr_sz, pystr_dot_sz]
    exact cons_isPrefixOf_eq_false _ _ _
      (head_ne_of_digits_append hc _ (by omega) (by omega))
  have r1 : py_replace (c ++ pystr ".sz") (pystr ".sh") = c ++ pystr ".sz" := by
    rw [pystr_dot_sh, pystr_dot_sz]
    exact py_replace_eq_self _ _ _
      ⟨104, by simp, not_mem_append_lit (by decide) hc (by omega)⟩
  have r2 : py_replace (c ++ pystr ".sz") (pystr ".sz") = c := by
    rw [pystr_dot_sz]
    exact py_replace_tail 46 [115, 122] c
      (fun d hd => by have := hc d hd; omega)
  rw [bao_eval_digits c hc]
  simp only [BaoStockDataSource.normalize_code]
  rw [pyStrip_eq_self (forall_mem_append (noWS_of_isDigits hc) (by decide)),
    pyLower_eq_self (forall_mem_append (digits_lowerNat hc) (by decide)),
    if_neg (by simp [hsh, hsz]), r1, r2]

theorem bao_dot_SZ (c : PyStr) (hc : isDigits c) :
    BaoStockDataSource.normalize_code (c ++ pystr ".SZ") =
      BaoStockDataSource.normalize_code c := by
  have hlow : pyLower (c ++ pystr ".SZ") = c ++ pystr ".sz" := by
    rw [pyLower_append, pyLower_eq_self (digits_lowerNat hc),
      show pyLower (pystr ".SZ") = pystr ".sz" from by decide]
  have hsh : (pystr "sh.").isPrefixOf (c ++ pystr ".sz") = false := by
    rw [pystr_sh, pystr_dot_sz]
    exact cons_isPrefixOf_eq_false _ _ _
      (head_ne_of_digits_append hc _ (by omega) (by omega))
  have hsz : (pystr "sz.").isPrefixOf (c ++ pystr ".sz") = false := by
    rw [pystr_sz, pystr_dot_sz]
    exact cons_isPrefixOf_eq_false _ _ _
      (head_ne_of_digits_append hc _ (by omega) (by omega))
  have r1 : py_replace (c ++ pystr ".sz") (pystr ".sh") = c ++ pystr ".sz" := by
    rw [pystr_dot_sh, pystr_dot_sz]
    exact py_replace_eq_self _ _ _
      ⟨104, by simp, not_mem_append_lit (by decide) hc (by omega)⟩
  have r2 : py_replace (c ++ pystr ".sz") (pystr ".sz") = c := by
    rw [pystr_dot_sz]
    exact py_replace_tail 46 [115, 122] c
      (fun d hd => by have := hc d hd; omega)
  rw [bao_eval_digits c hc]
  simp only [BaoStockDataSource.normalize_code]
  rw [pyStrip_eq_self (forall_mem_append (noWS_of_isDigits hc) (by decide)),
    hlow, if_neg (by simp [hsh, hsz]), r1, r2]

theorem bao_forms_value (c : PyStr) (hc : isDigits c) :
    ∀ x ∈ market_forms c,
      BaoStockDataSource.normalize_code x = pystr "sh." ++ c ∨
      BaoStockDataSource.normalize_code x = pystr "sz." ++ c := by
  intro x hx
  simp only [market_forms, List.mem_cons, List.not_mem_nil, or_false] at hx
  rcases hx with rfl | rfl | rfl | rfl | rfl | rfl | rfl | rfl | rfl
  · exact bao_core _ hc
  · exact Or.inl (bao_fixed_sh c hc)
  · exact Or.inr (bao_fixed_sz c hc)
  · exact Or.inl (bao_prefix_SH c hc)
  · exact Or.inr (bao_prefix_SZ c hc)
  · rw [bao_dot_sh c hc]
    exact bao_core c hc
  · rw [bao_dot_sz c hc]
    exact bao_core c hc
  · rw [bao_dot_SH c hc]
    exact bao_core c hc
  · rw [bao_dot_SZ c hc]
    exact bao_core c hc

theorem bao_idem_forms (c : PyStr) (hc : isDigits c) :
    ∀ x ∈ market_forms c,
      BaoStockDataSource.normalize_code (BaoStockDataSource.normalize_code x) =
        BaoStockDataSource.normalize_code x := by
  intro x hx
  rcases bao_forms_value c hc x hx with hv | hv <;> rw [hv]
  · exact bao_fixed_sh c hc
  · exact bao_fixed_sz c hc

/-! ### Tushare normalize_code evaluation -/

theorem dot_not_suffix_digits (x y : Nat) (hyd : y < 48 ∨ 57 < y)
    (c : PyStr) (hc : isDigits c) :
    ([46, x, y].isSuffixOf c) = false := by
  rw [Bool.eq_false_iff]
  intro hsuf
  have h := List.isSuffixOf_iff_suffix.mp hsuf
  have h2 : ([46, x, y] : PyStr).reverse <+: c.reverse :=
    List.reverse_prefix.mpr h
  rw [show ([46, x, y] : PyStr).reverse = [y, x, 46] from by simp] at h2
  cases hcr : c.reverse with
  | nil =>
    rw [hcr] at h2
    have h3 := h2.length_le
    simp at h3
  | cons d r =>
    rw [hcr] at h2
    have hy := (List.cons_prefix_cons.mp h2).1
    subst hy
    have hyc : y ∈ c := by
      rw [← List.mem_reverse, hcr]
      simp
    have := hc y hyc
    omega

theorem tu_fixed_of (s : PyStr) (h1 : ∀ ch ∈ s, isSpaceNat ch = false)
    (h2 : ∀ ch ∈ s, upperNat ch = ch)
    (h3 : ((pystr ".SH").isSuffixOf s || (pystr ".SZ").isSuffixOf s) = true) :
    TushareDataSource.normalize_code s = s := by
  simp only [TushareDataSource.normalize_code]
  rw [pyStrip_eq_self h1, pyUpper_eq_self h2, if_pos h3]

theorem tu_fixed_SH (c : PyStr) (hc : isDigits c) :
    TushareDataSource.normalize_code (c ++ pystr ".SH") = c ++ pystr ".SH" := by
  refine tu_fixed_of _ (forall_mem_append (noWS_of_isDigits hc) (by decide))
    (forall_mem_append (digits_upperNat hc) (by decide)) ?_
  rw [Bool.or_eq_true]
  exact Or.inl (isSuffixOf_append_self c (pystr ".SH"))

theorem tu_fixed_SZ (c : PyStr) (hc : isDigits c) :
    TushareDataSource.normalize_code (c ++ pystr ".SZ") = c ++ pystr ".SZ" := by
  refine tu_fixed_of _ (forall_mem_append (noWS_of_isDigits hc) (by decide))
    (forall_mem_append (digits_upperNat hc) (by decide)) ?_
  rw [Bool.or_eq_true]
  exact Or.inr (isSuffixOf_append_self c (pystr ".SZ"))

theorem tu_eval_digits (c : PyStr) (hc : isDigits c) :
    TushareDataSource.normalize_code c =
      (if (pystr "6").isPrefixOf c then c ++ pystr ".SH"
       else if ((pystr "0").isPrefixOf c || (pystr "3").isPrefixOf c) then
         c ++ pystr ".SZ"
       else c ++ pystr ".SH") := by
  have s1 : (pystr ".SH").isSuffixOf c = false := by
    rw [pystr_dot_SH]
    exact dot_not_suffix_digits 83 72 (by omega) c hc
  have s2 : (pystr ".SZ").isSuffixOf c = false := by
    rw [pystr_dot_SZ]
    exact dot_not_suffix_digits 83 90 (by omega) c hc
  have r1 : py_replace c (pystr "SH.") = c := by
    rw [pystr_SH]
    exact py_replace_eq_self _ _ c ⟨46, by simp, not_mem_digits hc (by omega)⟩
  have r2 : py_replace c (pystr "SZ.") = c := by
    rw [pystr_SZ]
    exact py_replace_eq_self _ _ c ⟨46, by simp, not_mem_digits hc (by omega)⟩
  have r3 : py_replace c (pystr "sh.") = c := by
    rw [pystr_sh]
    exact py_replace_eq_self _ _ c ⟨46, by simp, not_mem_digits hc (by omega)⟩
  have r4 : py_replace c (pystr "sz.") = c := by
    rw [pystr_sz]
    exact py_replace_eq_self _ _ c ⟨46, by simp, not_mem_digits hc (by omega)⟩
  simp only [TushareDataSource.normalize_code]
  rw [pyStrip_eq_self (noWS_of_isDigits hc),
    pyUpper_eq_self (digits_upperNat hc), if_neg (by simp [s1, s2]),
    r1, r2, r3, r4]

theorem tu_core (c : PyStr) (hc : isDigits c) :
    TushareDataSource.normalize_code c = c ++ pystr ".SH" ∨
    TushareDataSource.normalize_code c = c ++ pystr ".SZ" := by
  rw [tu_eval_digits c hc]
  split
  · exact Or.inl rfl
  · split
    · exact Or.inr rfl
    · exact Or.inl rfl

theorem tu_dot_sh (c : PyStr) (hc : isDigits c) :
    TushareDataSource.normalize_code (c ++ pystr ".sh") = c ++ pystr ".SH" := by
  have hup : pyUpper (c ++ pystr ".sh") = c ++ pystr ".SH" := by
    rw [pyUpper_append, pyUpper_eq_self (digits_upperNat hc),
      show pyUpper (pystr ".sh") = pystr ".SH" from by decide]
  simp only [TushareDataSource.normalize_code]
  rw [pyStrip_eq_self (forall_mem_append (noWS_of_isDigits hc) (by decide)),
    hup, if_pos ?_]
  rw [Bool.or_eq_true]
  exact Or.inl (isSuffixOf_append_self c (pystr ".SH"))

theorem tu_dot_sz (c : PyStr) (hc : isDigits c) :
    TushareDataSource.normalize_code (c ++ pystr ".sz") = c ++ pystr ".SZ" := by
  have hup : pyUpper (c ++ pystr ".sz") = c ++ pystr ".SZ" := by
    rw [pyUpper_append, pyUpper_eq_self (digits_upperNat hc),
      show pyUpper (pystr ".sz") = pystr ".SZ" from by decide]
  simp only [TushareDataSource.normalize_code]
  rw [pyStrip_eq_self (forall_mem_append (noWS_of_isDigits hc) (by decide)),
    hup, if_pos ?_]
  rw [Bool.or_eq_true]
  exact Or.inr (isSuffixOf_append_self c (pystr ".SZ"))

theorem tu_prefix_sh (c : PyStr) (hc : isDigits c) :
    TushareDataSource.normalize_code (pystr "sh." ++ c) =
      TushareDataSource.normalize_code c := by
  have hup : pyUpper (pystr "sh." ++ c) = pystr "SH." ++ c := by
    rw [pyUpper_append, pyUpper_eq_self (digits_upperNat hc),
      show pyUpper (pystr "sh.") = pystr "SH." from by decide]
  have s1 : (pystr ".SH").isSuffixOf (pystr "SH." ++ c) = false := by
    rw [pystr_dot_SH, pystr_SH]
    exact dotXY_not_suffix 83 72 (by omega) (by omega) 83 72 c hc
  have s2 : (pystr ".SZ").isSuffixOf (pystr "SH." ++ c) = false := by
    rw [pystr_dot_SZ, pystr_SH]
    exact dotXY_not_suffix 83 90 (by omega) (by omega) 83 72 c hc
  have r1 : py_replace (pystr "SH." ++ c) (pystr "SH.") = c := by
    rw [pystr_SH]
    rw [show ([83, 72, 46] : PyStr) ++ c = (83 :: [72, 46]) ++ c from rfl,
      py_replace_head 83 [72, 46] c]
    exact py_replace_eq_self _ _ c ⟨46, by simp, not_mem_digits hc (by omega)⟩
  have r2 : py_replace c (pystr "SZ.") = c := by
    rw [pystr_SZ]
    exact py_replace_eq_self _ _ c ⟨46, by simp, not_mem_digits hc (by omega)⟩
  have r3 : py_replace c (pystr "sh.") = c := by
    rw [pystr_sh]
    exact py_replace_eq_self _ _ c ⟨46, by simp, not_mem_digits hc (by omega)⟩
  have r4 : py_replace c (pystr "sz.") = c := by
    rw [pystr_sz]
    exact py_replace_eq_self _ _ c ⟨46, by simp, not_mem_digits hc (by omega)⟩
  rw [tu_eval_digits c hc]
  simp only [TushareDataSource.normalize_code]
  rw [pyStrip_eq_self (forall_mem_append (by decide) (noWS_of_isDigits hc)),
    hup, if_neg (by simp [s1, s2]), r1, r2, r3, r4]

theorem tu_prefix_SH (c : PyStr) (hc : isDigits c) :
    TushareDataSource.normalize_code (pystr "SH." ++ c) =
      TushareDataSource.normalize_code c := by
  have hup : pyUpper (pystr "SH." ++ c) = pystr "SH." ++ c :=
    pyUpper_eq_self (forall_mem_append (by decide) (digits_upperNat hc))
  have s1 : (pystr ".SH").isSuffixOf (pystr "SH." ++ c) = false := by
    rw [pystr_dot_SH, pystr_SH]
    exact dotXY_not_suffix 83 72 (by omega) (by omega) 83 72 c hc
  have s2 : (pystr ".SZ").isSuffixOf (pystr "SH." ++ c) = false := by
    rw [pystr_dot_SZ, pystr_SH]
    exact dotXY_not_suffix 83 90 (by omega) (by omega) 83 72 c hc
  have r1 : py_replace (pystr "SH." ++ c) (pystr "SH.") = c := by
    rw [pystr_SH]
    rw [show ([83, 72, 46] : PyStr) ++ c = (83 :: [72, 46]) ++ c from rfl,
      py_replace_head 83 [72, 46] c]
    exact py_replace_eq_self _ _ c ⟨46, by simp, not_mem_digits hc (by omega)⟩
  have r2 : py_replace c (pystr "SZ.") = c := by
    rw [pystr_SZ]
    exact py_replace_eq_self _ _ c ⟨46, by simp, not_mem_digits hc (by omega)⟩
  have r3 : py_replace c (pystr "sh.") = c := by
    rw [pystr_sh]
    exact py_replace_eq_self _ _ c ⟨46, by simp, not_mem_digits hc (by omega)⟩
  have r4 : py_replace c (pystr "sz.") = c := by
    rw [pystr_sz]
    exact py_replace_eq_self _ _ c ⟨46, by simp, not_mem_digits hc (by omega)⟩
  rw [tu_eval_digits c hc]
  simp only [TushareDataSource.normalize_code]
  rw [pyStrip_eq_self (forall_mem_append (by decide) (noWS_of_isDigits hc)),
    hup, if_neg (by simp [s1, s2]), r1, r2, r3, r4]

theorem tu_prefix_sz (c : PyStr) (hc : isDigits c) :
    TushareDataSource.normalize_code (pystr "sz." ++ c) =
      TushareDataSource.normalize_code c := by
  have hup : pyUpper (pystr "sz." ++ c) = pystr "SZ." ++ c := by
    rw [pyUpper_append, pyUpper_eq_self (digits_upperNat hc),
      show pyUpper (pystr "sz.") = pystr "SZ." from by decide]
  have s1 : (pystr ".SH").isSuffixOf (pystr "SZ." ++ c) = false := by
    rw [pystr_dot_SH, pystr_SZ]
    exact dotXY_not_suffix 83 72 (by omega) (by omega) 83 90 c hc
  have s2 : (pystr ".SZ").isSuffixOf (pystr "SZ." ++ c) = false := by
    rw [pystr_dot_SZ, pystr_SZ]
    exact dotXY_not_suffix 83 90 (by omega) (by omega) 83 90 c hc
  have r1 : py_replace (pystr "SZ." ++ c) (pystr "SH.") =
      pystr "SZ." ++ c := by
    rw [pystr_SH, pystr_SZ]
    exact py_replace_eq_self _ _ _
      ⟨72, by simp, not_mem_lit_append (by decide) hc (by omega)⟩
  have r2 : py_replace (pystr "SZ." ++ c) (pystr "SZ.") = c := by
    rw [pystr_SZ]
    rw [show ([83, 90, 46] : PyStr) ++ c = (83 :: [90, 46]) ++ c from rfl,
      py_replace_head 83 [90, 46] c]
    exact py_replace_eq_self _ _ c ⟨46, by simp, not_mem_digits hc (by omega)⟩
  have r3 : py_replace c (pystr "sh.") = c := by
    rw [pystr_sh]
    exact py_replace_eq_self _ _ c ⟨46, by simp, not_mem_digits hc (by omega)⟩
  have r4 : py_replace c (pystr "sz.") = c := by
    rw [pystr_sz]
    exact py_replace_eq_self _ _ c ⟨46, by simp, not_mem_digits hc (by omega)⟩
  rw [tu_eval_digits c hc]
  simp only [TushareDataSource.normalize_code]
  rw [pyStrip_eq_self (forall_mem_append (by decide) (noWS_of_isDigits hc)),
    hup, if_neg (by simp [s1, s2]), r1, r2, r3, r4]

theorem tu_prefix_SZ (c : PyStr) (hc : isDigits c) :
    TushareDataSource.normalize_code (pystr "SZ." ++ c) =
      TushareDataSource.normalize_code c := by
  have hup : pyUpper (pystr "SZ." ++ c) = pystr "SZ." ++ c :=
    pyUpper_eq_self (forall_mem_append (by decide) (digits_upperNat hc))
  have s1 : (pystr ".SH").isSuffixOf (pystr "SZ." ++ c) = false := by
    rw [pystr_dot_SH, pystr_SZ]
    exact dotXY_not_suffix 83 72 (by omega) (by omega) 83 90 c hc
  have s2 : (pystr ".SZ").isSuffixOf (pystr "SZ." ++ c) = false := by
    rw [pystr_dot_SZ, pystr_SZ]
    exact dotXY_not_suffix 83 90 (by omega) (by omega) 83 90 c hc
  have r1 : py_replace (pystr "SZ." ++ c) (pystr "SH.") =
      pystr "SZ." ++ c := by
    rw [pystr_SH, pystr_SZ]
    exact py_replace_eq_self _ _ _
      ⟨72, by simp, not_mem_lit_append (by decide) hc (by omega)⟩
  have r2 : py_replace (pystr "SZ." ++ c) (pystr "SZ.") = c := by
    rw [pystr_SZ]
    rw [show ([83, 90, 46] : PyStr) ++ c = (83 :: [90, 46]) ++ c from rfl,
      py_replace_head 83 [90, 46] c]
    exact py_replace_eq_self _ _ c ⟨46, by simp, not_mem_digits hc (by omega)⟩
  have r3 : py_replace c (pystr "sh.") = c := by
    rw [pystr_sh]
    exact py_replace_eq_self _ _ c ⟨46, by simp, not_mem_digits hc (by omega)⟩
  have r4 : py_replace c (pystr "sz.") = c := by
    rw [pystr_sz]
    exact py_replace_eq_self _ _ c ⟨46, by simp, not_mem_digits hc (by omega)⟩
  rw [tu_eval_digits c hc]
  simp only [TushareDataSource.normalize_code]
  rw [pyStrip_eq_self (forall_mem_append (by decide) (noWS_of_isDigits hc)),
    hup, if_neg (by simp [s1, s2]), r1, r2, r3, r4]

theorem tu_forms_value (c : PyStr) (hc : isDigits c) :
    ∀ x ∈ market_forms c,
      TushareDataSource.normalize_code x = c ++ pystr ".SH" ∨
      TushareDataSource.normalize_code x = c ++ pystr ".SZ" := by
  intro x hx
  simp only [market_forms, List.mem_cons, List.not_mem_nil, or_false] at hx
  rcases hx with rfl | rfl | rfl | rfl | rfl | rfl | rfl | rfl | rfl
  · exact tu_core _ hc
  · rw [tu_prefix_sh c hc]
    exact tu_core c hc
  · rw [tu_prefix_sz c hc]
    exact tu_core c hc
  · rw [tu_prefix_SH c hc]
    exact tu_core c hc
  · rw [tu_prefix_SZ c hc]
    exact tu_core c hc
  · exact Or.inl (tu_dot_sh c hc)
  · exact Or.inr (tu_dot_sz c hc)
  · exact Or.inl (tu_fixed_SH c hc)
  · exact Or.inr (tu_fixed_SZ c hc)

theorem tu_idem_forms (c : PyStr) (hc : isDigits c) :
    ∀ x ∈ market_forms c,
      TushareDataSource.normalize_code (TushareDataSource.normalize_code x) =
        TushareDataSource.normalize_code x := by
  intro x hx
  rcases tu_forms_value c hc x hx with hv | hv <;> rw [hv]
  · exact tu_fixed_SH c hc
  · exact tu_fixed_SZ c hc

/-! ### AkShare normalize_code evaluation -/

theorem ak_digits (c : PyStr) (hc : isDigits c) :
    AkShareDataSource.normalize_code c = c := by
  have r : ∀ (p : Nat) (ps : List Nat), 46 ∈ p :: ps →
      py_replace c (p :: ps) = c :=
    fun p ps hp =>
      py_replace_eq_self _ _ c ⟨46, hp, not_mem_digits hc (by omega)⟩
  simp only [AkShareDataSource.normalize_code, AkShareDataSource.extract_code]
  rw [pyStrip_eq_self (noWS_of_isDigits hc), pystr_sh, pystr_sz, pystr_SH,
    pystr_SZ, pystr_dot_SH, pystr_dot_SZ, pystr_dot_sh, pystr_dot_sz,
    r 115 [104, 46] (by simp), r 115 [122, 46] (by simp),
    r 83 [72, 46] (by simp), r 83 [90, 46] (by simp),
    r 46 [83, 72] (by simp), r 46 [83, 90] (by simp),
    r 46 [115, 104] (by simp), r 46 [115, 122] (by simp)]

theorem ak_prefix_sh (c : PyStr) (hc : isDigits c) :
    AkShareDataSource.normalize_code (pystr "sh." ++ c) = c := by
  have r : ∀ (p : Nat) (ps : List Nat), 46 ∈ p :: ps →
      py_replace c (p :: ps) = c :=
    fun p ps hp =>
      py_replace_eq_self _ _ c ⟨46, hp, not_mem_digits hc (by omega)⟩
  have rh : py_replace ([115, 104, 46] ++ c) [115, 104, 46] = c := by
    rw [show ([115, 104, 46] : PyStr) ++ c = (115 :: [104, 46]) ++ c from rfl,
      py_replace_head 115 [104, 46] c]
    exact r 115 [104, 46] (by simp)
  simp only [AkShareDataSource.normalize_code, AkShareDataSource.extract_code]
  rw [pyStrip_eq_self (forall_mem_append (by decide) (noWS_of_isDigits hc)),
    pystr_sh, pystr_sz, pystr_SH, pystr_SZ, pystr_dot_SH, pystr_dot_SZ,
    pystr_dot_sh, pystr_dot_sz, rh,
    r 115 [122, 46] (by simp), r 83 [72, 46] (by simp),
    r 83 [90, 46] (by simp), r 46 [83, 72] (by simp),
    r 46 [83, 90] (by simp), r 46 [115, 104] (by simp),
    r 46 [115, 122] (by simp)]

theorem ak_prefix_sz (c : PyStr) (hc : isDigits c) :
    AkShareDataSource.normalize_code (pystr "sz." ++ c) = c := by
  have r : ∀ (p : Nat) (ps : List Nat), 46 ∈ p :: ps →
      py_replace c (p :: ps) = c :=
    fun p ps hp =>
      py_replace_eq_self _ _ c ⟨46, hp, not_mem_digits hc (by omega)⟩
  have r1 : py_replace ([115, 122, 46] ++ c) [115, 104, 46] =
      [115, 122, 46] ++ c :=
    py_replace_eq_self _ _ _
      ⟨104, by simp, not_mem_lit_append (by decide) hc (by omega)⟩
  have rz : py_replace ([115, 122, 46] ++ c) [115, 122, 46] = c := by
    rw [show ([115, 122, 46] : PyStr) ++ c = (115 :: [122, 46]) ++ c from rfl,
      py_replace_head 115 [122, 46] c]
    exact r 115 [122, 46] (by simp)
  simp only [AkShareDataSource.normalize_code, AkShareDataSource.extract_code]
  rw [pyStrip_eq_self (forall_mem_append (by decide) (noWS_of_isDigits hc)),
    pystr_sh, pystr_sz, pystr_SH, pystr_SZ, pystr_dot_SH, pystr_dot_SZ,
    pystr_dot_sh, pystr_dot_sz, r1, rz,
    r 83 [72, 46] (by simp), r 83 [90, 46] (by simp),
    r 46 [83, 72] (by simp), r 46 [83, 90] (by simp),
    r 46 [115, 104] (by simp), r 46 [115, 122] (by simp)]

theorem ak_prefix_SH (c : PyStr) (hc : isDigits c) :
    AkShareDataSource.normalize_code (pystr "SH." ++ c) = c := by
  have r : ∀ (p : Nat) (ps : List Nat), 46 ∈ p :: ps →
      py_replace c (p :: ps) = c :=
    fun p ps hp =>
      py_replace_eq_self _ _ c ⟨46, hp, not_mem_digits hc (by omega)⟩
  have r1 : py_replace ([83, 72, 46] ++ c) [115, 104, 46] =
      [83, 72, 46] ++ c :=
    py_replace_eq_self _ _ _
      ⟨115, by simp, not_mem_lit_append (by decide) hc (by omega)⟩
  have r2 : py_replace ([83, 72, 46] ++ c) [115, 122, 46] =
      [83, 72, 46] ++ c :=
    py_replace_eq_self _ _ _
      ⟨115, by simp, not_mem_lit_append (by decide) hc (by omega)⟩
  have rH : py_replace ([83, 72, 46] ++ c) [83, 72, 46] = c := by
    rw [show ([83, 72, 46] : PyStr) ++ c = (83 :: [72, 46]) ++ c from rfl,
      py_replace_head 83 [72, 46] c]
    exact r 83 [72, 46] (by simp)
  simp only [AkShareDataSource.normalize_code, AkShareDataSource.extract_code]
  rw [pyStrip_eq_self (forall_mem_append (by decide) (noWS_of_isDigits hc)),
    pystr_sh, pystr_sz, pystr_SH, pystr_SZ, pystr_dot_SH, pystr_dot_SZ,
    pystr_dot_sh, pystr_dot_sz, r1, r2, rH,
    r 83 [90, 46] (by simp), r 46 [83, 72] (by simp),
    r 46 [83, 90] (by simp), r 46 [115, 104] (by simp),
    r 46 [115, 122] (by simp)]

theorem ak_prefix_SZ (c : PyStr) (hc : isDigits c) :
    AkShareDataSource.normalize_code (pystr "SZ." ++ c) = c := by
  have r : ∀ (p : Nat) (ps : List Nat), 46 ∈ p :: ps →
      py_replace c (p :: ps) = c :=
    fun p ps hp =>
      py_replace_eq_self _ _ c ⟨46, hp, not_mem_digits hc (by omega)⟩
  have r1 : py_replace ([83, 90, 46] ++ c) [115, 104, 46] =
      [83, 90, 46] ++ c :=
    py_replace_eq_self _ _ _
      ⟨115, by simp, not_mem_lit_append (by decide) hc (by omega)⟩
  have r2 : py_replace ([83, 90, 46] ++ c) [115, 122, 46] =
      [83, 90, 46] ++ c :=
    py_replace_eq_self _ _ _
      ⟨115, by simp, not_mem_lit_append (by decide) hc (by omega)⟩
  have r3 : py_replace ([83, 90, 46] ++ c) [83, 72, 46] =
      [83, 90, 46] ++ c :=
    py_replace_eq_self _ _ _
      ⟨72, by simp, not_mem_lit_append (by decide) hc (by omega)⟩
  have rZ : py_replace ([83, 90, 46] ++ c) [83, 90, 46] = c := by
    rw [show ([83, 90, 46] : PyStr) ++ c = (83 :: [90, 46]) ++ c from rfl,
      py_replace_head 83 [90, 46] c]
    exact r 83 [90, 46] (by simp)
  simp only [AkShareDataSource.normalize_code, AkShareDataSource.extract_code]
  rw [pyStrip_eq_self (forall_mem_append (by decide) (noWS_of_isDigits hc)),
    pystr_sh, pystr_sz, pystr_SH, pystr_SZ, pystr_dot_SH, pystr_dot_SZ,
    pystr_dot_sh, pystr_dot_sz, r1, r2, r3, rZ,
    r 46 [83, 72] (by simp),
    r 46 [83, 90] (by simp), r 46 [115, 104] (by simp),
    r 46 [115, 122] (by simp)]

theorem ak_dot_SH (c : PyStr) (hc : isDigits c) :
    AkShareDataSource.normalize_code (c ++ pystr ".SH") = c := by
  have r : ∀ (p : Nat) (ps : List Nat), 46 ∈ p :: ps →
      py_replace c (p :: ps) = c :=
    fun p ps hp =>
      py_replace_eq_self _ _ c ⟨46, hp, not_mem_digits hc (by omega)⟩
  have r1 : py_replace (c ++ [46, 83, 72]) [115, 104, 46] =
      c ++ [46, 83, 72] :=
    py_replace_eq_self _ _ _
      ⟨115, by simp, not_mem_append_lit (by decide) hc (by omega)⟩
  have r2 : py_replace (c ++ [46, 83, 72]) [115, 122, 46] =
      c ++ [46, 83, 72] :=
    py_replace_eq_self _ _ _
      ⟨115, by simp, not_mem_append_lit (by decide) hc (by omega)⟩
  have r3 : py_replace (c ++ [46, 83, 72]) [83, 72, 46] =
      c ++ [46, 83, 72] :=
    py_replace_pat_rot 83 72 (by omega) (by omega) (by omega) c hc
  have r4 : py_replace (c ++ [46, 83, 72]) [83, 90, 46] =
      c ++ [46, 83, 72] :=
    py_replace_eq_self _ _ _
      ⟨90, by simp, not_mem_append_lit (by decide) hc (by omega)⟩
  have r5 : py_replace (c ++ [46, 83, 72]) [46, 83, 72] = c := by
    rw [show (c ++ [46, 83, 72] : PyStr) = c ++ (46 :: [83, 72]) from rfl]
    exact py_replace_tail 46 [83, 72] c (fun d hd => by have := hc d hd; omega)
  simp only [AkShareDataSource.normalize_code, AkShareDataSource.extract_code]
  rw [pyStrip_eq_self (forall_mem_append (noWS_of_isDigits hc) (by decide)),
    pystr_sh, pystr_sz, pystr_SH, pystr_SZ, pystr_dot_SH, pystr_dot_SZ,
    pystr_dot_sh, pystr_dot_sz, r1, r2, r3, r4, r5,
    r 46 [83, 90] (by simp), r 46 [115, 104] (by simp),
    r 46 [115, 122] (by simp)]

theorem ak_dot_SZ (c : PyStr) (hc : isDigits c) :
    AkShareDataSource.normalize_code (c ++ pystr ".SZ") = c := by
  have r : ∀ (p : Nat) (ps : List Nat), 46 ∈ p :: ps →
      py_replace c (p :: ps) = c :=
    fun p ps hp =>
      py_replace_eq_self _ _ c ⟨46, hp, not_mem_digits hc (by omega)⟩
  have r1 : py_replace (c ++ [46, 83, 90]) [115, 104, 46] =
      c ++ [46, 83, 90] :=
    py_replace_eq_self _ _ _
      ⟨115, by simp, not_mem_append_lit (by decide) hc (by omega)⟩
  have r2 : py_replace (c ++ [46, 83, 90]) [115, 122, 46] =
      c ++ [46, 83, 90] :=
    py_replace_eq_self _ _ _
      ⟨115, by simp, not_mem_append_lit (by decide) hc (by omega)⟩
  have r3 : py_replace (c ++ [46, 83, 90]) [83, 72, 46] =
      c ++ [46, 83, 90] :=
    py_replace_eq_self _ _ _
      ⟨72, by simp, not_mem_append_lit (by decide) hc (by omega)⟩
  have r4 : py_replace (c ++ [46, 83, 90]) [83, 90, 46] =
      c ++ [46, 83, 90] :=
    py_replace_pat_rot 83 90 (by omega) (by omega) (by omega) c hc
  have r5 : py_replace (c ++ [46, 83, 90]) [46, 83, 72] =
      c ++ [46, 83, 90] :=
    py_replace_eq_self _ _ _
      ⟨72, by simp, not_mem_append_lit (by decide) hc (by omega)⟩
  have r6 : py_replace (c ++ [46, 83, 90]) [46, 83, 90] = c := by
    rw [show (c ++ [46, 83, 90] : PyStr) = c ++ (46 :: [83, 90]) from rfl]
    exact py_replace_tail 46 [83, 90] c (fun d hd => by have := hc d hd; omega)
  simp only [AkShareDataSource.normalize_code, AkShareDataSource.extract_code]
  rw [pyStrip_eq_self (forall_mem_append (noWS_of_isDigits hc) (by decide)),
    pystr_sh, pystr_sz, pystr_SH, pystr_SZ, pystr_dot_SH, pystr_dot_SZ,
    pystr_dot_sh, pystr_dot_sz, r1, r2, r3, r4, r5, r6,
    r 46 [115, 104] (by simp), r 46 [115, 122] (by simp)]

theorem ak_dot_sh (c : PyStr) (hc : isDigits c) :
    AkShareDataSource.normalize_code (c ++ pystr ".sh") = c := by
  have r : ∀ (p : Nat) (ps : List Nat), 46 ∈ p :: ps →
      py_replace c (p :: ps) = c :=
    fun p ps hp =>
      py_replace_eq_self _ _ c ⟨46, hp, not_mem_digits hc (by omega)⟩
  have r1 : py_replace (c ++ [46, 115, 104]) [115, 104, 46] =
      c ++ [46, 115, 104] :=
    py_replace_pat_rot 115 104 (by omega) (by omega) (by omega) c hc
  have r2 : py_replace (c ++ [46, 115, 104]) [115, 122, 46] =
      c ++ [46, 115, 104] :=
    py_replace_eq_self _ _ _
      ⟨122, by simp, not_mem_append_lit (by decide) hc (by omega)⟩
  have r3 : py_replace (c ++ [46, 115, 104]) [83, 72, 46] =
      c ++ [46, 115, 104] :=
    py_replace_eq_self _ _ _
      ⟨83, by simp, not_mem_append_lit (by decide) hc (by omega)⟩
  have r4 : py_replace (c ++ [46, 115, 104]) [83, 90, 46] =
      c ++ [46, 115, 104] :=
    py_replace_eq_self _ _ _
      ⟨83, by simp, not_mem_append_lit (by decide) hc (by omega)⟩
  have r5 : py_replace (c ++ [46, 115, 104]) [46, 83, 72] =
      c ++ [46, 115, 104] :=
    py_replace_eq_self _ _ _
      ⟨83, by simp, not_mem_append_lit (by decide) hc (by omega)⟩
  have r6 : py_replace (c ++ [46, 115, 104]) [46, 83, 90] =
      c ++ [46, 115, 104] :=
    py_replace_eq_self _ _ _
      ⟨83, by simp, not_mem_append_lit (by decide) hc (by omega)⟩
  have r7 : py_replace (c ++ [46, 115, 104]) [46, 115, 104] = c := by
    rw [show (c ++ [46, 115, 104] : PyStr) = c ++ (46 :: [115, 104]) from rfl]
    exact py_replace_tail 46 [115, 104] c
      (fun d hd => by have := hc d hd; omega)
  simp only [AkShareDataSource.normalize_code, AkShareDataSource.extract_code]
  rw [pyStrip_eq_self (forall_mem_append (noWS_of_isDigits hc) (by decide)),
    pystr_sh, pystr_sz, pystr_SH, pystr_SZ, pystr_dot_SH, pystr_dot_SZ,
    pystr_dot_sh, pystr_dot_sz, r1, r2, r3, r4, r5, r6, r7,
    r 46 [115, 122] (by simp)]

theorem ak_dot_sz (c : PyStr) (hc : isDigits c) :
    AkShareDataSource.normalize_code (c ++ pystr ".sz") = c := by
  have r : ∀ (p : Nat) (ps : List Nat), 46 ∈ p :: ps →
      py_replace c (p :: ps) = c :=
    fun p ps hp =>
      py_replace_eq_self _ _ c ⟨46, hp, not_mem_digits hc (by omega)⟩
  have r1 : py_replace (c ++ [46, 115, 122]) [115, 104, 46] =
      c ++ [46, 115, 122] :=
    py_replace_eq_self _ _ _
      ⟨104, by simp, not_mem_append_lit (by decide) hc (by omega)⟩
  have r2 : py_replace (c ++ [46, 115, 122]) [115, 122, 46] =
      c ++ [46, 115, 122] :=
    py_replace_pat_rot 115 122 (by omega) (by omega) (by omega) c hc
  have r3 : py_replace (c ++ [46, 115, 122]) [83, 72, 46] =
      c ++ [46, 115, 122] :=
    py_replace_eq_self _ _ _
      ⟨83, by simp, not_mem_append_lit (by decide) hc (by omega)⟩
  have r4 : py_replace (c ++ [46, 115, 122]) [83, 90, 46] =
      c ++ [46, 115, 122] :=
    py_replace_eq_self _ _ _
      ⟨83, by simp, not_mem_append_lit (by decide) hc (by omega)⟩
  have r5 : py_replace (c ++ [46, 115, 122]) [46, 83, 72] =
      c ++ [46, 115, 122] :=
    py_replace_eq_self _ _ _
      ⟨83, by simp, not_mem_append_lit (by decide) hc (by omega)⟩
  have r6 : py_replace (c ++ [46, 115, 122]) [46, 83, 90] =
      c ++ [46, 115, 122] :=
    py_replace_eq_self _ _ _
      ⟨83, by simp, not_mem_append_lit (by decide) hc (by omega)⟩
  have r7 : py_replace (c ++ [46, 115, 122]) [46, 115, 104] =
      c ++ [46, 115, 122] :=
    py_replace_eq_self _ _ _
      ⟨104, by simp, not_mem_append_lit (by decide) hc (by omega)⟩
  have r8 : py_replace (c ++ [46, 115, 122]) [46, 115, 122] = c := by
    rw [show (c ++ [46, 115, 122] : PyStr) = c ++ (46 :: [115, 122]) from rfl]
    exact py_replace_tail 46 [115, 122] c
      (fun d hd => by have := hc d hd; omega)
  simp only [AkShareDataSource.normalize_code, AkShareDataSource.extract_code]
  rw [pyStrip_eq_self (forall_mem_append (noWS_of_isDigits hc) (by decide)),
    pystr_sh, pystr_sz, pystr_SH, pystr_SZ, pystr_dot_SH, pystr_dot_SZ,
    pystr_dot_sh, pystr_dot_sz, r1, r2, r3, r4, r5, r6, r7, r8]

theorem ak_forms_value (c : PyStr) (hc : isDigits c) :
    ∀ x ∈ market_forms c, AkShareDataSource.normalize_code x = c := by
  intro x hx
  simp only [market_forms, List.mem_cons, List.not_mem_nil, or_false] at hx
  rcases hx with rfl | rfl | rfl | rfl | rfl | rfl | rfl | rfl | rfl
  · exact ak_digits _ hc
  · exact ak_prefix_sh c hc
  · exact ak_prefix_sz c hc
  · exact ak_prefix_SH c hc
  · exact ak_prefix_SZ c hc
  · exact ak_dot_sh c hc
  · exact ak_dot_sz c hc
  · exact ak_dot_SH c hc
  · exact ak_dot_SZ c hc

theorem ak_idem_forms (c : PyStr) (hc : isDigits c) :
    ∀ x ∈ market_forms c,
      AkShareDataSource.normalize_code (AkShareDataSource.normalize_code x) =
        AkShareDataSource.normalize_code x := by
  intro x hx
  rw [ak_forms_value c hc x hx]
  exact ak_digits c hc

/-- Counterexample to C9: none of the three `normalize_code` methods is
idempotent on arbitrary strings.  BaoStock maps `'600000 .sh'` to
`'sh.600000 '` (trailing space kept by the replace) but maps that to
`'sh.600000'`; Tushare maps `'SH. 600'` to `' 600.SH'` but maps that to
`'600.SH'`; AkShare maps `'sh. 600'` to `' 600'` but maps that to
`'600'`. -/
theorem claim_C9_counterexample :
    BaoStockDataSource.normalize_code
        (BaoStockDataSource.normalize_code (pystr "600000 .sh")) ≠
      BaoStockDataSource.normalize_code (pystr "600000 .sh") ∧
    TushareDataSource.normalize_code
        (TushareDataSource.normalize_code (pystr "SH. 600")) ≠
      TushareDataSource.normalize_code (pystr "SH. 600") ∧
    AkShareDataSource.normalize_code
        (AkShareDataSource.normalize_code (pystr "sh. 600")) ≠
      AkShareDataSource.normalize_code (pystr "sh. 600") := by
  refine ⟨by decide, by decide, by decide⟩

/-- C9 amended: each adapter's `normalize_code` is idempotent on every
well-formed code input — a digit string, bare or carrying one market
prefix (`sh.`, `sz.`, `SH.`, `SZ.`) or one market suffix (`.sh`, `.sz`,
`.SH`, `.SZ`) — and a code already in the adapter's own format is
returned unchanged (BaoStock: `sh.`/`sz.` prefix; Tushare: `.SH`/`.SZ`
suffix; AkShare: bare digits).  On arbitrary strings idempotence fails
(see the counterexample). -/
theorem claim_C9_amended (c : PyStr) (hc : isDigits c) :
    (∀ x ∈ market_forms c,
      BaoStockDataSource.normalize_code
          (BaoStockDataSource.normalize_code x) =
        BaoStockDataSource.normalize_code x ∧
      TushareDataSource.normalize_code
          (TushareDataSource.normalize_code x) =
        TushareDataSource.normalize_code x ∧
      AkShareDataSource.normalize_code
          (AkShareDataSource.normalize_code x) =
        AkShareDataSource.normalize_code x) ∧
    BaoStockDataSource.normalize_code (pystr "sh." ++ c) = pystr "sh." ++ c ∧
    BaoStockDataSource.normalize_code (pystr "sz." ++ c) = pystr "sz." ++ c ∧
    TushareDataSource.normalize_code (c ++ pystr ".SH") = c ++ pystr ".SH" ∧
    TushareDataSource.normalize_code (c ++ pystr ".SZ") = c ++ pystr ".SZ" ∧
    AkShareDataSource.normalize_code c = c := by
  refine ⟨?_, bao_fixed_sh c hc, bao_fixed_sz c hc, tu_fixed_SH c hc,
    tu_fixed_SZ c hc, ak_digits c hc⟩
  intro x hx
  exact ⟨bao_idem_forms c hc x hx, tu_idem_forms c hc x hx,
    ak_idem_forms c hc x hx⟩

/-- Witness for the amended C9 at the digit core `'600000'`. -/
theorem claim_C9_amended_witness :
    BaoStockDataSource.normalize_code
        (BaoStockDataSource.normalize_code (pystr "600000.SH")) =
      BaoStockDataSource.normalize_code (pystr "600000.SH") ∧
    BaoStockDataSource.normalize_code (pystr "sh." ++ pystr "600000") =
      pystr "sh." ++ pystr "600000" ∧
    TushareDataSource.normalize_code (pystr "600000" ++ pystr ".SH") =
      pystr "600000" ++ pystr ".SH" ∧
    AkShareDataSource.normalize_code (pystr "600000") = pystr "600000" := by
  have h := claim_C9_amended (pystr "600000") (by decide)
  refine ⟨?_, h.2.1, h.2.2.2.1, h.2.2.2.2.2⟩
  have h2 := (h.1 (pystr "600000" ++ pystr ".SH") (by decide)).1
  exact h2

/-! ## Concrete evaluations of the embedded adapters -/

example :
    BaoStockDataSource.normalize_code (pystr "600000") = pystr "sh.600000" := by
  decide

example :
    BaoStockDataSource.normalize_code (pystr "000001.SZ") = pystr "sz.000001" := by
  decide

example :
    TushareDataSource.normalize_code (pystr "sh.600000") = pystr "600000.SH" := by
  decide

example :
    AkShareDataSource.normalize_code (pystr "sz.000001") = pystr "000001" := by
  decide

example :
    BaoStockDataSource.normalize_code
        (BaoStockDataSource.normalize_code (pystr "600000 .sh")) ≠
      BaoStockDataSource.normalize_code (pystr "600000 .sh") := by
  decide
